import Mathlib

/-!
Package kerror: error kinds, application errors and their HTTP rendering

A shallow embedding of the Go package `kerror` (`kerror.go`, `http.go`,
`validator.go`) and theorems about it.

Conventions of the embedding.

* A Go `error` interface value is a `GoError`; `GoError.nil` is the nil interface.
  Pointers held in interfaces are non-nil. A `*Kerror` held in an interface is the
  constructor `GoError.kerror`, carrying the fields of the struct it points to. Where
  the identity of a pointer matters (`WithAt`, `TokerrorAt`), a `*Kerror` is an address
  in a `Store`.
* A run-time panic is the result `none`.
* The response is written once: `HTTPErrorResponse` is called on a context whose
  response has not been committed.
* A Go map is an association list with at most one entry per key (`mapSet` replaces),
  wrapped in `Option`: `none` is the nil map.
* A Go slice of `interface{}` passed to a variadic function is an
  `Option (List Value)`: `none` is the nil slice (a call without arguments).
-/

set_option autoImplicit false

namespace kerror

/-! ## Dynamic values and maps -/

/-- An `interface{}` value, as far as the package looks at it: a string, or a value of
another dynamic type. `other text` is a value of any further type, `text` being what
the `%v` verb of `fmt` prints for it. -/
inductive Value where
  | str (s : String)
  | int (n : Int)
  | bool (b : Bool)
  | nil
  | other (text : String)
  deriving DecidableEq, Repr

/-- What `fmt.Sprintf("%v", v)` prints. -/
def Value.format : Value → String
  | .str s => s
  | .int n => toString n
  | .bool b => if b then "true" else "false"
  | .nil => "<nil>"
  | .other text => text

/-- The assignment `m[key] = v` on a Go map. -/
def mapSet {α : Type} : List (String × α) → String → α → List (String × α)
  | [], key, v => [(key, v)]
  | (a, x) :: rest, key, v =>
    if a = key then (a, v) :: rest else (a, x) :: mapSet rest key v

/-- The read `m[key]` on a Go map, `none` when the key is absent. -/
def mapGet {α : Type} : List (String × α) → String → Option α
  | [], _ => none
  | (a, x) :: rest, key => if a = key then some x else mapGet rest key

/-- Type `LogContext map[string]interface{}`; `none` is the nil map. -/
abbrev LogContext := Option (List (String × Value))

/-- A `logam.Logger`: the package only stores it and calls `Errorw` on it. -/
structure Logger where
  id : Nat
  deriving DecidableEq, Repr

/-! ## Error values -/

/-- A Go `error` interface value, by dynamic type. -/
inductive GoError where
  /-- The nil interface. -/
  | nil
  /-- The sentinel `sql.ErrNoRows`. -/
  | sqlErrNoRows
  /-- The result of `errors.New(s)`. -/
  | errorString (s : String)
  /-- The result of `fmt.Errorf` with a `%w` verb: its text and the error it wraps. -/
  | wrapError (msg : String) (err : GoError)
  /-- A `*pq.Error`. -/
  | pqError (Code : String) (Message : String)
  /-- An `*echo.HTTPError`. -/
  | echoHTTPError (Code : Int) (Message : Value) (Internal : GoError)
  /-- A `*Kerror`, with the fields of the struct. -/
  | kerror (Status : Int) (Kind : String) (Message : String)
      (Fields : Option (List (String × String))) (context : LogContext)
      (err : GoError) (logger : Option Logger)
  /-- A `KisaError` of another concrete type (a struct embedding the interface), with
  what its `Code`, `GetKind`, `GetMessage`, `GetValidationFields` and `Error` return. -/
  | foreignKisa (Code : Int) (Kind : String) (Message : String)
      (Fields : Option (List (String × String))) (text : String)
  deriving DecidableEq, Repr

/-- Struct `Kerror`. -/
structure Kerror where
  Status : Int
  Kind : String
  Message : String
  Fields : Option (List (String × String))
  context : LogContext
  err : GoError
  logger : Option Logger
  deriving DecidableEq, Repr

/-- A `*Kerror` stored in an `error` (or `KisaError`) interface. -/
def Kerror.toError (k : Kerror) : GoError :=
  .kerror k.Status k.Kind k.Message k.Fields k.context k.err k.logger

/-- The type assertion `e.(*Kerror)`. -/
def asKerror : GoError → Option Kerror
  | .kerror s k m f c e l => some ⟨s, k, m, f, c, e, l⟩
  | _ => none

/-- Whether the type assertion `e.(KisaError)` succeeds. -/
def isKisaError : GoError → Bool
  | .kerror .. => true
  | .foreignKisa .. => true
  | _ => false

/-- Whether the dynamic type of `e` is `*echo.HTTPError`. -/
def isEchoHTTPError : GoError → Bool
  | .echoHTTPError .. => true
  | _ => false

/-- The call `errors.Is(err, sql.ErrNoRows)`: the sentinel is looked for along the
chain of `Unwrap` (`*Kerror`, `*echo.HTTPError` and `%w` wrappers have one). -/
def errorsIsErrNoRows : GoError → Bool
  | .nil => false
  | .sqlErrNoRows => true
  | .errorString _ => false
  | .wrapError _ err => errorsIsErrNoRows err
  | .pqError _ _ => false
  | .echoHTTPError _ _ internal => errorsIsErrNoRows internal
  | .kerror _ _ _ _ _ err _ => errorsIsErrNoRows err
  | .foreignKisa .. => false

/-! ## Kinds (`kerror.go`) -/

/-- Type `Kind uint8`. -/
abbrev Kind := Nat

def ErrUnkown : Kind := 0
def ErrInvalidRequest : Kind := 1
def ErrNotFound : Kind := 2
def ErrResourceConflict : Kind := 3
def ErrInternalServer : Kind := 4
def ErrValidation : Kind := 5
def ErrDatabase : Kind := 6
def ErrUnauthorized : Kind := 7
def ErrForbidden : Kind := 8
def ErrRequestTimeout : Kind := 9
def ErrEchoServer : Kind := 10
def ErrNoToken : Kind := 11
def ErrInvalidToken : Kind := 12
def ErrInvalidJWTClaims : Kind := 13

/-- Method `(k Kind) String()`. -/
def Kind.String (k : Kind) : String :=
  match k with
  | 0 => "unknown_error"
  | 1 => "invalid_request_error"
  | 2 => "item_not_found_error"
  | 3 => "resource_conflict_error"
  | 4 => "internal_server_error"
  | 5 => "input_validation_error"
  | 6 => "database_error"
  | 7 => "authorization_error"
  | 8 => "forbiden_error"
  | 9 => "request_timeout_err"
  | 10 => "server_error"
  | 11 => "no_token_error"
  | 12 => "invalid_token_error"
  | 13 => "invalid_jwt_claims_error"
  | _ => "unkown_error"

/-! ## Application errors (`kerror.go`) -/

/-- What the `%v` verb prints for an error value: `<nil>` for the nil interface, the
result of its `Error` method otherwise. -/
def errorText : GoError → String
  | .nil => "<nil>"
  | .sqlErrNoRows => "sql: no rows in result set"
  | .errorString s => s
  | .wrapError msg _ => msg
  | .pqError _ message => "pq: " ++ message
  | .echoHTTPError code message .nil =>
    "code=" ++ toString code ++ ", message=" ++ message.format
  | .echoHTTPError code message internal =>
    "code=" ++ toString code ++ ", message=" ++ message.format ++ ", internal=" ++
      errorText internal
  | .kerror status _ message _ _ err _ =>
    "status: " ++ toString status ++ " - message: " ++ message ++ " - errors: " ++
      errorText err
  | .foreignKisa _ _ _ _ text => text

/-- The method call `e.Error()` on an interface value: a panic on the nil interface. -/
def callError : GoError → Option String
  | .nil => none
  | e => some (errorText e)

/-- Function `newKisa`: the struct the returned pointer points to. -/
def newKisa (m : String) (k : String) (s : Int) (err : GoError) : Kerror :=
  { Status := s, Kind := k, Message := m, Fields := none, context := none, err := err,
    logger := none }

/-- Method `(k Kerror) Error()`. -/
def Kerror.Error (k : Kerror) : String :=
  "status: " ++ toString k.Status ++ " - message: " ++ k.Message ++ " - errors: " ++
    errorText k.err

/-- Method `(k Kerror) Code()`. -/
def Kerror.Code (k : Kerror) : Int := k.Status

/-- Method `(k Kerror) GetKind()`. -/
def Kerror.GetKind (k : Kerror) : String := k.Kind

/-- Method `(k Kerror) GetMessage()`. -/
def Kerror.GetMessage (k : Kerror) : String := k.Message

/-- Method `(k Kerror) GetValidationFields()`. -/
def Kerror.GetValidationFields (k : Kerror) : Option (List (String × String)) := k.Fields

/-- Method `(k Kerror) Unwrap()`. -/
def Kerror.Unwrap (k : Kerror) : GoError := k.err

/-- The loop of `With`, from index `i` on (the list is `contextArgs[i:]`): the key must
be a string and the value at `i+1` must exist, else the loop panics. -/
def withLoop : List Value → List (String × Value) → Option (List (String × Value))
  | [], context => some context
  | key :: rest, context =>
    match key with
    | .str contextKey =>
      match rest with
      | [] => none
      | contextVal :: rest2 => withLoop rest2 (mapSet context contextKey contextVal)
    | _ => none

/-- The loop of `messageFromContext` over the entries of the context map: the message
after it, or `none` when the value under `"what"` is not a string. -/
def whatLoop (message : String) : List (String × Value) → Option String
  | [] => some message
  | (a, v) :: rest =>
    if a = "what" then
      match v with
      | .str s => some (message ++ ", " ++ s)
      | _ => none
    else whatLoop message rest

/-- Method `(k *Kerror) messageFromContext()`: the struct afterwards. -/
def Kerror.messageFromContext (k : Kerror) : Option Kerror :=
  match k.context with
  | none => some k
  | some entries => (whatLoop k.Message entries).map fun m => { k with Message := m }

/-- Method `(k *Kerror) With(contextArgs ...interface{})`: the struct the receiver (and
the returned pointer, which is the receiver) points to afterwards, `none` on a panic. -/
def Kerror.With (k : Kerror) (contextArgs : Option (List Value)) : Option Kerror :=
  match contextArgs with
  | none => some k
  | some args =>
    let numArgs := args.length
    let k1 : Kerror :=
      if numArgs = 1 then
        { k with Message := k.Message ++ ", " ++ (args.headD Value.nil).format }
      else k
    match withLoop args [] with
    | none => none
    | some context => Kerror.messageFromContext { k1 with context := some context }

/-- The deferred `k.logger.Errorw(k.Message, contextArgs...)` of `With`: the logger, the
message and the arguments of the call, if it is made. -/
def Kerror.WithLogged (k : Kerror) (contextArgs : Option (List Value)) :
    Option (Logger × String × List Value) :=
  match contextArgs with
  | none => none
  | some args =>
    match Kerror.With k (some args) with
    | none => none
    | some k2 => k2.logger.map fun l => (l, k2.Message, args)

/-- Struct `FieldValidationError` (`validator.go`). -/
structure FieldValidationError where
  FieldName : String
  Error : GoError
  deriving DecidableEq, Repr

/-- Type `validationFields []FieldValidationError`. -/
abbrev validationFields := List FieldValidationError

/-- The loop of `setValidationFields`: `f.Error.Error()` panics on a nil `Error`. -/
def fieldsLoop : List FieldValidationError → List (String × String) →
    Option (List (String × String))
  | [], fields => some fields
  | f :: rest, fields =>
    match callError f.Error with
    | none => none
    | some text => fieldsLoop rest (mapSet fields f.FieldName text)

/-- Method `(k *Kerror) setValidationFields(vf)`: the struct afterwards. -/
def Kerror.setValidationFields (k : Kerror) (vf : validationFields) : Option Kerror :=
  (fieldsLoop vf []).map fun fields => { k with Fields := some fields }

/-- Method `(k *Kerror) setLogger(l)`: the struct afterwards. -/
def Kerror.setLogger (k : Kerror) (l : Option Logger) : Kerror :=
  { k with logger := l }

def StatusBadRequest : Int := 400
def StatusUnauthorized : Int := 401
def StatusForbidden : Int := 403
def StatusNotFound : Int := 404
def StatusConflict : Int := 409
def StatusInternalServerError : Int := 500

def InvalidRequestError (message : String) (err : GoError) : Kerror :=
  newKisa message (Kind.String ErrInvalidRequest) StatusBadRequest err

/-- Function `Is(e KisaError, k Kind)`. -/
def Is (e : GoError) (k : Kind) : Bool :=
  match asKerror e with
  | none => false
  | some err => err.Kind == Kind.String k

def NotFoundError (message : String) (err : GoError) : Kerror :=
  newKisa message (Kind.String ErrNotFound) StatusNotFound err

def ResourceConflictError (message : String) (err : GoError) : Kerror :=
  newKisa message (Kind.String ErrResourceConflict) StatusConflict err

def InternalServerError (err : GoError) : Kerror :=
  newKisa "this is an internal server error! our team has been notified"
    (Kind.String ErrInternalServer) StatusInternalServerError err

/-- Function `DatabaseError(err, log)`. -/
def DatabaseError (err : GoError) (log : Option Logger) : Kerror :=
  if errorsIsErrNoRows err then
    NotFoundError "the resource could not be found in the database" err
  else
    match err with
    | .pqError code _ =>
      if code = "23505" then
        (ResourceConflictError "this entry already existed in the database" err).setLogger
          log
      else
        (InternalServerError GoError.nil).setLogger log
    | _ => InternalServerError err

/-- Function `ValidationError(err validationFields)`, `none` on a panic. -/
def ValidationError (err : validationFields) : Option Kerror :=
  (newKisa "could not validate one or more of the submitted fields"
    (Kind.String ErrValidation) StatusBadRequest GoError.nil).setValidationFields err

/-- The body of `Tokerror` after the assertion `err := e.(KisaError)` succeeded, with what
`err.Code()`, `err.GetKind()`, `err.GetMessage()` and `err.GetValidationFields()` return:
the struct the returned pointer points to, `none` for the nil pointer of `return nil`. -/
def tokerrorBody (err : GoError) (code : Int) (kind message : String)
    (fields : Option (List (String × String))) : Option Kerror :=
  if err ≠ GoError.nil then
    let kerr : Kerror :=
      { Status := code, Kind := kind, Message := message, Fields := none, context := none,
        err := GoError.nil, logger := none }
    some (if Is err ErrValidation then { kerr with Fields := fields } else kerr)
  else none

/-- Function `Tokerror(e error)`: `none` when the assertion `e.(KisaError)` panics,
otherwise the returned pointer (`some none` is nil). -/
def Tokerror (e : GoError) : Option (Option Kerror) :=
  match e with
  | .kerror status kind message fields context err logger =>
    some (tokerrorBody (.kerror status kind message fields context err logger) status kind
      message fields)
  | .foreignKisa code kind message fields text =>
    some (tokerrorBody (.foreignKisa code kind message fields text) code kind message
      fields)
  | _ => none

/-! ## Pointers to `Kerror` -/

/-- The `Kerror` structs in memory: a `*Kerror` is an index of the list, and an index
past its end is a pointer to no struct. -/
abbrev Store := List Kerror

/-- Method `With` on a pointer `k`: the memory afterwards and the returned pointer. -/
def WithAt (st : Store) (k : Nat) (contextArgs : Option (List Value)) :
    Option (Store × Nat) :=
  match contextArgs with
  | none => some (st, k)
  | some args =>
    match st[k]? with
    | none => none
    | some v => (v.With (some args)).map fun v2 => (st.set k v2, k)

/-- Function `Tokerror` on a `*Kerror` `e`: the memory afterwards and the returned
pointer (`none` is nil); the struct literal `&Kerror{...}` takes a fresh address. -/
def TokerrorAt (st : Store) (e : Nat) : Option (Store × Option Nat) :=
  match st[e]? with
  | none => none
  | some v =>
    match Tokerror v.toError with
    | none => none
    | some none => some (st, none)
    | some (some kerr) => some (st ++ [kerr], some st.length)

/-! ## Field names (`validator.go`) -/

/-- A `reflect.StructField`: its name and its tag, as the key/value pairs that
`reflect.StructTag.Get` looks up. -/
structure StructField where
  Name : String
  Tag : List (String × String)
  deriving DecidableEq, Repr

/-- Method `StructTag.Get`: the value under the key, the empty string if there is none. -/
def StructField.tagGet (fld : StructField) (key : String) : String :=
  (mapGet fld.Tag key).getD ""

/-- The call `strings.SplitN(s, ",", 2)`: `s` cut at its first comma, if it has one. -/
def SplitN2 (s : String) : List String :=
  match s.data.span (fun ch => ch != ',') with
  | (first, []) => [String.mk first]
  | (first, _ :: rest) => [String.mk first, String.mk rest]

/-- Function `GetJSONTag(fld)`, `none` if the index `[0]` is out of range. -/
def GetJSONTag (fld : StructField) : Option String :=
  match SplitN2 (fld.tagGet "json") with
  | [] => none
  | name :: _ => some (if name = "-" then "" else name)

/-! ## Rendering (`http.go`) -/

/-- A JSON document as `encoding/json` writes it, strings before escaping. -/
inductive JSON where
  | str (s : String)
  | obj (members : List (String × JSON))

/-- The members of a JSON object (none for a string). -/
def JSON.members : JSON → List (String × JSON)
  | .str _ => []
  | .obj ms => ms

/-- The value of the first member named `key` of a JSON object. -/
def JSON.field (j : JSON) (key : String) : Option JSON :=
  mapGet j.members key

/-- The names of the members of a JSON object. -/
def JSON.keys (j : JSON) : List String :=
  j.members.map Prod.fst

/-- Struct `httpErrorResponse`. -/
structure httpErrorResponse where
  Code : Int
  Kind : String
  Message : String
  RequestID : String
  Fields : Option (List (String × String))
  deriving DecidableEq, Repr

/-- One step of sorting map entries by key, as `encoding/json` does for a map. -/
def insertByKey (e : String × String) : List (String × String) → List (String × String)
  | [] => [e]
  | x :: rest => if e.1 < x.1 then e :: x :: rest else x :: insertByKey e rest

/-- The entries of a map in the order of their keys. -/
def sortByKey : List (String × String) → List (String × String)
  | [] => []
  | e :: rest => insertByKey e (sortByKey rest)

/-- The JSON object of a `map[string]string`. -/
def marshalFields (fields : List (String × String)) : JSON :=
  .obj ((sortByKey fields).map fun e => (e.1, JSON.str e.2))

/-- The JSON object of an `httpErrorResponse`, by its struct tags: `Code` is left out
(tag `-`) and `Fields` is left out when the map is nil or empty (`omitempty`). -/
def httpErrorResponse.marshal (res : httpErrorResponse) : JSON :=
  .obj ([("kind", JSON.str res.Kind), ("message", JSON.str res.Message),
         ("request_id", JSON.str res.RequestID)] ++
    match res.Fields with
    | none => []
    | some [] => []
    | some (e :: rest) => [("fields", marshalFields (e :: rest))])

/-- The part of an `echo.Context` the package reads: the header of the response, a
list of values under each (canonical) key. -/
structure Context where
  ResponseHeader : List (String × List String)
  deriving DecidableEq, Repr

/-- Method `Header.Get`: the first value under the key, the empty string if none. -/
def Context.headerGet (c : Context) (key : String) : String :=
  match mapGet c.ResponseHeader key with
  | some (v :: _) => v
  | _ => ""

/-- What `c.JSON(code, body)` sends: the status code and the JSON body. -/
structure Response where
  Status : Int
  Body : JSON

/-- The `switch` of `HTTPErrorResponse`: the struct `res` after it, `none` when
`log.Panic` is reached. -/
def classify (e : GoError) : Option httpErrorResponse :=
  match e with
  | .echoHTTPError code message _ =>
    some { Code := code, Kind := Kind.String ErrEchoServer, Message := message.format,
           RequestID := "", Fields := none }
  | _ =>
    let ke : GoError := if isKisaError e then e else (InternalServerError e).toError
    match asKerror ke with
    | none => none
    | some kerror =>
      let res : httpErrorResponse :=
        { Code := kerror.Code, Kind := kerror.Kind, Message := kerror.GetMessage,
          RequestID := "",
          Fields := if Is ke ErrValidation then kerror.GetValidationFields else none }
      some (if Is ke ErrInternalServer then
              { res with Message := "Internal server error!" }
            else res)

def StatusOK : Int := 200

/-- Method `c.JSON(code, body)` on a response to which nothing has been written yet:
the first write sends the header, a code of 0 as `http.StatusOK`, and `WriteHeader`
panics on a code below 100 or above 999. -/
def Context.JSON (_c : Context) (code : Int) (body : JSON) : Option Response :=
  let status : Int := if code = 0 then StatusOK else code
  if status < 100 ∨ 999 < status then none else some { Status := status, Body := body }

/-- Function `HTTPErrorResponse(c, e)`: the response sent, `none` on a panic. -/
def HTTPErrorResponse (c : Context) (e : GoError) : Option Response :=
  (classify e).bind fun res0 =>
    let res : httpErrorResponse := { res0 with RequestID := c.headerGet "X-Request-Id" }
    c.JSON res.Code (JSON.obj [("error", res.marshal)])

/-- Function `BindError(err, message)`, `none` when `err.Error()` panics. -/
def BindError (err : GoError) (message : String) : Option Kerror :=
  match err with
  | .echoHTTPError _ m _ =>
    some (InvalidRequestError ("error byding type " ++ message ++ ", " ++ m.format)
      GoError.nil)
  | _ =>
    (callError err).map fun text =>
      InvalidRequestError ("error binding type " ++ message ++ ", " ++ text) GoError.nil

def UnauthorizedError (message : String) (err : GoError) : Kerror :=
  newKisa message (Kind.String ErrUnauthorized) StatusUnauthorized err

def ForbidenError (message : String) (err : GoError) : Kerror :=
  newKisa message (Kind.String ErrForbidden) StatusForbidden err

def NoTokenError (err : GoError) : Kerror :=
  newKisa "No token found in request header." (Kind.String ErrNoToken)
    StatusUnauthorized err

def InvalidTokenError (err : GoError) : Kerror :=
  newKisa "The provided token is not valid." (Kind.String ErrInvalidToken)
    StatusUnauthorized err

def InvalidJWTClaimsError (err : GoError) : Kerror :=
  newKisa "The JWT claims are not valid." (Kind.String ErrInvalidJWTClaims)
    StatusUnauthorized err

def InvalidApiKeyError (err : GoError) : Kerror :=
  newKisa "The provided api key is not valid." (Kind.String ErrInvalidToken)
    StatusUnauthorized err

def InvalidKeyAttributesError (err : GoError) : Kerror :=
  newKisa "The API Key attributes are not valid." (Kind.String ErrInvalidJWTClaims)
    StatusUnauthorized err

def InvalidAuthMethodError (err : GoError) : Kerror :=
  newKisa "The authentication method is not supported." (Kind.String ErrInvalidJWTClaims)
    StatusUnauthorized err

/-- The errors the constructors of the package return. -/
inductive Constructed : Kerror → Prop where
  | invalidRequest (m : String) (e : GoError) : Constructed (InvalidRequestError m e)
  | notFound (m : String) (e : GoError) : Constructed (NotFoundError m e)
  | resourceConflict (m : String) (e : GoError) : Constructed (ResourceConflictError m e)
  | internalServer (e : GoError) : Constructed (InternalServerError e)
  | validation (vf : validationFields) (k : Kerror) (h : ValidationError vf = some k) :
      Constructed k
  | database (e : GoError) (log : Option Logger) : Constructed (DatabaseError e log)
  | unauthorized (m : String) (e : GoError) : Constructed (UnauthorizedError m e)
  | forbiden (m : String) (e : GoError) : Constructed (ForbidenError m e)
  | noToken (e : GoError) : Constructed (NoTokenError e)
  | invalidToken (e : GoError) : Constructed (InvalidTokenError e)
  | invalidJWTClaims (e : GoError) : Constructed (InvalidJWTClaimsError e)
  | invalidApiKey (e : GoError) : Constructed (InvalidApiKeyError e)
  | invalidKeyAttributes (e : GoError) : Constructed (InvalidKeyAttributesError e)
  | invalidAuthMethod (e : GoError) : Constructed (InvalidAuthMethodError e)

/-- The body `{"error": {"kind": .., "message": .., "request_id": ..}}`, without a
`fields` member. -/
def plainBody (kind message requestID : String) : JSON :=
  .obj [("error", .obj [("kind", .str kind), ("message", .str message),
                        ("request_id", .str requestID)])]

/-- The status of each kind string in the table of the constructors. -/
def tableStatus (kind : String) : Int :=
  if kind = "invalid_request_error" then 400
  else if kind = "item_not_found_error" then 404
  else if kind = "resource_conflict_error" then 409
  else if kind = "internal_server_error" then 500
  else if kind = "input_validation_error" then 400
  else if kind = "forbiden_error" then 403
  else 401

/-- The `fields` member of the `error` object of the body sent, if there is one. -/
def Response.fields (r : Response) : Option JSON :=
  (r.Body.field "error").bind fun e => e.field "fields"

/-- The `kind` member of the `error` object of the body sent. -/
def Response.kind (r : Response) : Option JSON :=
  (r.Body.field "error").bind fun e => e.field "kind"

/-- The argument list `key1, value1, key2, value2, ...` of the given pairs. -/
def pairArgs : List (String × Value) → List Value
  | [] => []
  | (a, v) :: rest => Value.str a :: v :: pairArgs rest

/-- The context map after the assignments `context[key] = value` of the pairs, in order. -/
def setAll (context : List (String × Value)) (kvs : List (String × Value)) :
    List (String × Value) :=
  kvs.foldl (fun m p => mapSet m p.1 p.2) context

/-- The field map after the assignments `fields[f.FieldName] = f.Error.Error()` of the
entries, in order. -/
def setFields (fields : List (String × String)) (vf : List FieldValidationError) :
    List (String × String) :=
  vf.foldl (fun m f => mapSet m f.FieldName (errorText f.Error)) fields

/-- The invariant of C11 on an application error: the field map is set only if the kind
is `"input_validation_error"`. -/
def FieldsOnlyIfValidation (k : Kerror) : Prop :=
  k.Fields ≠ none → k.Kind = "input_validation_error"

/-! ## Theorems -/

theorem JSON_valid_code (c : Context) (code : Int) (body : JSON) (hlo : 100 ≤ code)
    (hhi : code ≤ 999) : c.JSON code body = some ⟨code, body⟩ := by
  have h0 : ¬ code = 0 := by omega
  have hr : ¬ (code < 100 ∨ 999 < code) := by omega
  simp only [Context.JSON, h0, if_false, hr]

theorem JSON_sent (c : Context) (code : Int) (body : JSON) (resp : Response)
    (h : c.JSON code body = some resp) : resp.Body = body := by
  unfold Context.JSON at h
  dsimp only at h
  by_cases hr : (if code = 0 then StatusOK else code) < 100 ∨
      999 < (if code = 0 then StatusOK else code)
  · rw [if_pos hr] at h
    exact absurd h (by simp)
  · rw [if_neg hr] at h
    have := Option.some.inj h
    subst this
    rfl

theorem mapGet_append_notin {α : Type} (before rest : List (String × α)) (key : String)
    (h : key ∉ before.map Prod.fst) : mapGet (before ++ rest) key = mapGet rest key := by
  induction before with
  | nil => rfl
  | cons x tl ih =>
    obtain ⟨a, v⟩ := x
    simp only [List.map_cons, List.mem_cons, not_or] at h
    have hne : ¬ a = key := fun e => h.1 e.symm
    simp only [List.cons_append, mapGet, hne, if_false]
    exact ih h.2

theorem headerGet_first (c : Context) (key r : String) (more : List String)
    (before after : List (String × List String))
    (hc : c.ResponseHeader = before ++ (key, r :: more) :: after)
    (hb : key ∉ before.map Prod.fst) : c.headerGet key = r := by
  simp only [Context.headerGet, hc, mapGet_append_notin _ _ _ hb, mapGet, if_true]

theorem setLogger_Kind (k : Kerror) (l : Option Logger) : (k.setLogger l).Kind = k.Kind :=
  rfl

theorem setLogger_Status (k : Kerror) (l : Option Logger) :
    (k.setLogger l).Status = k.Status := rfl

theorem messageFromContext_frame (k k2 : Kerror) (h : k.messageFromContext = some k2) :
    k2.Status = k.Status ∧ k2.Kind = k.Kind ∧ k2.Fields = k.Fields ∧ k2.err = k.err ∧
      k2.logger = k.logger ∧ k2.context = k.context := by
  unfold Kerror.messageFromContext at h
  cases hc : k.context with
  | none =>
    rw [hc] at h
    simp only [Option.some.injEq] at h
    subst h
    simp [hc]
  | some entries =>
    rw [hc] at h
    cases hw : whatLoop k.Message entries with
    | none => simp [hw] at h
    | some m =>
      simp only [hw, Option.map_some', Option.some.injEq] at h
      subst h
      simp [hc]

theorem With_frame (k k2 : Kerror) (args : Option (List Value)) (h : k.With args = some k2) :
    k2.Status = k.Status ∧ k2.Kind = k.Kind ∧ k2.Fields = k.Fields ∧ k2.err = k.err ∧
      k2.logger = k.logger := by
  unfold Kerror.With at h
  cases args with
  | none =>
    simp only [Option.some.injEq] at h
    subst h
    simp
  | some a =>
    simp only at h
    cases hl : withLoop a [] with
    | none => simp [hl] at h
    | some ctx =>
      simp only [hl] at h
      have := messageFromContext_frame _ _ h
      obtain ⟨h1, h2, h3, h4, h5, _⟩ := this
      refine ⟨?_, ?_, ?_, ?_, ?_⟩
      · rw [h1]; split <;> rfl
      · rw [h2]; split <;> rfl
      · rw [h3]; split <;> rfl
      · rw [h4]; split <;> rfl
      · rw [h5]; split <;> rfl

theorem DatabaseError_pair (err : GoError) (log : Option Logger) :
    ((DatabaseError err log).Kind = "item_not_found_error" ∧
        (DatabaseError err log).Status = 404) ∨
      ((DatabaseError err log).Kind = "resource_conflict_error" ∧
        (DatabaseError err log).Status = 409) ∨
      ((DatabaseError err log).Kind = "internal_server_error" ∧
        (DatabaseError err log).Status = 500) := by
  unfold DatabaseError
  split
  · exact Or.inl ⟨rfl, rfl⟩
  · split
    · split
      · exact Or.inr (Or.inl ⟨rfl, rfl⟩)
      · exact Or.inr (Or.inr ⟨rfl, rfl⟩)
    · exact Or.inr (Or.inr ⟨rfl, rfl⟩)

theorem ValidationError_pair (vf : validationFields) (k : Kerror)
    (h : ValidationError vf = some k) :
    k.Kind = "input_validation_error" ∧ k.Status = 400 := by
  unfold ValidationError Kerror.setValidationFields at h
  cases hf : fieldsLoop vf [] with
  | none => simp [hf] at h
  | some fields =>
    simp only [hf, Option.map_some', Option.some.injEq] at h
    subst h
    exact ⟨rfl, rfl⟩

theorem Constructed_table (k : Kerror) (h : Constructed k) :
    k.Status = tableStatus k.Kind := by
  cases h with
  | validation vf k h =>
    obtain ⟨h1, h2⟩ := ValidationError_pair vf k h
    rw [h1, h2]; rfl
  | database e log =>
    rcases DatabaseError_pair e log with ⟨h1, h2⟩ | ⟨h1, h2⟩ | ⟨h1, h2⟩ <;>
      (rw [h1, h2]; rfl)
  | _ => rfl

/-- C1 (counterexample): a `Kerror` whose `Kind` is `"internal_server_error"` and whose
exported `Status` is 503 is rendered with status 503, not 500. -/
theorem internal_kind_status_counterexample :
    (Kerror.mk 503 "internal_server_error" "db down" none none GoError.nil none).Kind =
        "internal_server_error" ∧
      (HTTPErrorResponse ⟨[]⟩
          (Kerror.mk 503 "internal_server_error" "db down" none none GoError.nil
            none).toError).map (fun r => r.Status) = some 503 ∧
      (HTTPErrorResponse ⟨[]⟩
          (Kerror.mk 503 "internal_server_error" "db down" none none GoError.nil
            none).toError).map (fun r => r.Status) ≠ some 500 := by
  refine ⟨rfl, rfl, ?_⟩
  decide

/-- C1 (amended): every application error whose `Kind` is `"internal_server_error"` and
whose `Status` is a status code that can be sent (100 to 999) is rendered with its own
`Status`, kind `"internal_server_error"` and the message `"Internal server error!"`,
whatever its message and cause; `InternalServerError(err)` has that kind and status 500
for every `err`, and a successful `With` keeps kind and status, so these errors are
rendered with status 500. -/
theorem internal_kind_render (c : Context) (k : Kerror)
    (h : k.Kind = "internal_server_error") (hlo : 100 ≤ k.Status)
    (hhi : k.Status ≤ 999) :
    HTTPErrorResponse c k.toError =
        some ⟨k.Status, plainBody "internal_server_error" "Internal server error!"
          (c.headerGet "X-Request-Id")⟩ ∧
      (∀ err : GoError, (InternalServerError err).Kind = "internal_server_error" ∧
        (InternalServerError err).Status = 500) ∧
      (∀ (args : Option (List Value)) (k2 : Kerror), k.With args = some k2 →
        k2.Kind = "internal_server_error" ∧ k2.Status = k.Status) := by
  refine ⟨?_, fun _ => ⟨rfl, rfl⟩, ?_⟩
  · cases k with
    | mk s kind m f ctx e l =>
      simp only at h hlo hhi
      subst h
      have hcl : classify (Kerror.mk s "internal_server_error" m f ctx e l).toError =
          some { Code := s, Kind := "internal_server_error",
                 Message := "Internal server error!", RequestID := "", Fields := none } :=
        rfl
      simp only [HTTPErrorResponse, hcl, Option.some_bind]
      rw [JSON_valid_code _ _ _ hlo hhi]
      rfl
  · intro args k2 hw
    obtain ⟨h1, h2, _⟩ := With_frame k k2 args hw
    exact ⟨h2.trans h, h1⟩

/-- C1 (witness): the error of `InternalServerError` after a `With` that rewrote its
message is rendered with status 500, the fixed message and the request id of the
header. -/
theorem internal_kind_render_witness :
    HTTPErrorResponse
        ⟨[("Content-Type", ["application/json"]), ("X-Request-Id", ["r1"])]⟩
        (Kerror.mk 500 "internal_server_error"
          "this is an internal server error! our team has been notified, disk full" none
          (some [("what", Value.str "disk full")]) (GoError.errorString "boom")
          none).toError =
      some ⟨500, plainBody "internal_server_error" "Internal server error!" "r1"⟩ :=
  (internal_kind_render
    ⟨[("Content-Type", ["application/json"]), ("X-Request-Id", ["r1"])]⟩
    (Kerror.mk 500 "internal_server_error"
      "this is an internal server error! our team has been notified, disk full" none
      (some [("what", Value.str "disk full")]) (GoError.errorString "boom") none) rfl
    (by decide) (by decide)).1

/-- C2: `DatabaseError` has three outcomes: an error that is or wraps `sql.ErrNoRows`
gives kind `"item_not_found_error"` and status 404; otherwise a `*pq.Error` with code
`"23505"` gives kind `"resource_conflict_error"` and status 409; every other error gives
kind `"internal_server_error"` and status 500. -/
theorem DatabaseError_classification (err : GoError) (log : Option Logger) :
    (errorsIsErrNoRows err = true →
        (DatabaseError err log).Kind = "item_not_found_error" ∧
          (DatabaseError err log).Status = 404) ∧
      (errorsIsErrNoRows err = false → (∃ msg, err = GoError.pqError "23505" msg) →
        (DatabaseError err log).Kind = "resource_conflict_error" ∧
          (DatabaseError err log).Status = 409) ∧
      (errorsIsErrNoRows err = false → (¬ ∃ msg, err = GoError.pqError "23505" msg) →
        (DatabaseError err log).Kind = "internal_server_error" ∧
          (DatabaseError err log).Status = 500) := by
  refine ⟨?_, ?_, ?_⟩
  · intro h
    simp only [DatabaseError, h, if_true]
    exact ⟨rfl, rfl⟩
  · rintro h ⟨msg, rfl⟩
    exact ⟨rfl, rfl⟩
  · intro h hpq
    unfold DatabaseError
    rw [if_neg (by simp [h])]
    split
    · rename_i code msg
      have hc : code ≠ "23505" := fun hc => hpq ⟨msg, by rw [hc]⟩
      rw [if_neg hc]
      exact ⟨rfl, rfl⟩
    · exact ⟨rfl, rfl⟩

/-- C2 (witness): the three outcomes on a wrapped `sql.ErrNoRows`, a duplicate-key
`*pq.Error` and a `*pq.Error` with another code. -/
theorem DatabaseError_classification_witness :
    ((DatabaseError (GoError.wrapError "get user: sql: no rows in result set"
          GoError.sqlErrNoRows) none).Kind = "item_not_found_error" ∧
        (DatabaseError (GoError.wrapError "get user: sql: no rows in result set"
          GoError.sqlErrNoRows) none).Status = 404) ∧
      ((DatabaseError (GoError.pqError "23505" "duplicate key") none).Kind =
          "resource_conflict_error" ∧
        (DatabaseError (GoError.pqError "23505" "duplicate key") none).Status = 409) ∧
      ((DatabaseError (GoError.pqError "42P01" "no such table") none).Kind =
          "internal_server_error" ∧
        (DatabaseError (GoError.pqError "42P01" "no such table") none).Status = 500) :=
  ⟨(DatabaseError_classification _ none).1 rfl,
   (DatabaseError_classification _ none).2.1 rfl ⟨"duplicate key", rfl⟩,
   (DatabaseError_classification _ none).2.2 rfl (by
      rintro ⟨msg, h⟩
      simp at h)⟩

/-- C3: every constructor returns the kind string and status of its category, for all
arguments, and two constructor results with equal kind have equal status. -/
theorem constructor_table :
    (∀ (m : String) (e : GoError),
        ((InvalidRequestError m e).Kind = "invalid_request_error" ∧
          (InvalidRequestError m e).Status = 400) ∧
        ((NotFoundError m e).Kind = "item_not_found_error" ∧
          (NotFoundError m e).Status = 404) ∧
        ((ResourceConflictError m e).Kind = "resource_conflict_error" ∧
          (ResourceConflictError m e).Status = 409) ∧
        ((UnauthorizedError m e).Kind = "authorization_error" ∧
          (UnauthorizedError m e).Status = 401) ∧
        ((ForbidenError m e).Kind = "forbiden_error" ∧
          (ForbidenError m e).Status = 403)) ∧
      (∀ e : GoError,
        ((InternalServerError e).Kind = "internal_server_error" ∧
          (InternalServerError e).Status = 500) ∧
        ((NoTokenError e).Kind = "no_token_error" ∧ (NoTokenError e).Status = 401) ∧
        ((InvalidTokenError e).Kind = "invalid_token_error" ∧
          (InvalidTokenError e).Status = 401) ∧
        ((InvalidApiKeyError e).Kind = "invalid_token_error" ∧
          (InvalidApiKeyError e).Status = 401) ∧
        ((InvalidJWTClaimsError e).Kind = "invalid_jwt_claims_error" ∧
          (InvalidJWTClaimsError e).Status = 401) ∧
        ((InvalidKeyAttributesError e).Kind = "invalid_jwt_claims_error" ∧
          (InvalidKeyAttributesError e).Status = 401) ∧
        ((InvalidAuthMethodError e).Kind = "invalid_jwt_claims_error" ∧
          (InvalidAuthMethodError e).Status = 401)) ∧
      (∀ (vf : validationFields) (k : Kerror), ValidationError vf = some k →
        k.Kind = "input_validation_error" ∧ k.Status = 400) ∧
      (∀ a b : Kerror, Constructed a → Constructed b → a.Kind = b.Kind →
        a.Status = b.Status) := by
  refine ⟨fun _ _ => ⟨⟨rfl, rfl⟩, ⟨rfl, rfl⟩, ⟨rfl, rfl⟩, ⟨rfl, rfl⟩, ⟨rfl, rfl⟩⟩,
    fun _ => ⟨⟨rfl, rfl⟩, ⟨rfl, rfl⟩, ⟨rfl, rfl⟩, ⟨rfl, rfl⟩, ⟨rfl, rfl⟩, ⟨rfl, rfl⟩,
      ⟨rfl, rfl⟩⟩,
    ValidationError_pair, ?_⟩
  intro a b ha hb hk
  rw [Constructed_table a ha, Constructed_table b hb, hk]

/-- C3 (witness): `ValidationError` of one failed field has the validation pair, and
`InvalidTokenError` and `InvalidApiKeyError`, of equal kind, have equal status. -/
theorem constructor_table_witness :
    ((Kerror.mk 400 "input_validation_error"
          "could not validate one or more of the submitted fields"
          (some [("email", "email is required")]) none GoError.nil none).Kind =
        "input_validation_error" ∧
      (Kerror.mk 400 "input_validation_error"
          "could not validate one or more of the submitted fields"
          (some [("email", "email is required")]) none GoError.nil none).Status = 400) ∧
      (InvalidTokenError GoError.nil).Status =
        (InvalidApiKeyError (GoError.errorString "bad key")).Status :=
  ⟨constructor_table.2.2.1 [⟨"email", GoError.errorString "email is required"⟩] _ rfl,
   constructor_table.2.2.2 _ _ (Constructed.invalidToken _) (Constructed.invalidApiKey _)
     rfl⟩

/-- C5: for every message `m`, every cause and every request id `r` that is the first
value under the key `X-Request-Id` of the header of the response, the error of
`NotFoundError(m, cause)` is rendered with status 404 and the body
`{"error": {"kind": "item_not_found_error", "message": m, "request_id": r}}`, which has
no `fields` member. -/
theorem NotFoundError_render (c : Context) (m : String) (cause : GoError) (r : String)
    (more : List String) (before after : List (String × List String))
    (hc : c.ResponseHeader = before ++ ("X-Request-Id", r :: more) :: after)
    (hb : "X-Request-Id" ∉ before.map Prod.fst) :
    HTTPErrorResponse c (NotFoundError m cause).toError =
      some ⟨404, JSON.obj [("error", JSON.obj [("kind", JSON.str "item_not_found_error"),
        ("message", JSON.str m), ("request_id", JSON.str r)])]⟩ := by
  have hr : HTTPErrorResponse c (NotFoundError m cause).toError =
      some ⟨404, JSON.obj [("error", JSON.obj [("kind", JSON.str "item_not_found_error"),
        ("message", JSON.str m),
        ("request_id", JSON.str (c.headerGet "X-Request-Id"))])]⟩ := rfl
  rw [hr, headerGet_first c "X-Request-Id" r more before after hc hb]

/-- C5 (witness): the message `X not found`, with the request id `req-42` held under
`X-Request-Id` between two other keys of the header. -/
theorem NotFoundError_render_witness :
    HTTPErrorResponse
        ⟨[("Content-Type", ["application/json"]), ("X-Request-Id", ["req-42"]),
          ("Vary", ["Origin"])]⟩
        (NotFoundError "X not found" (GoError.errorString "no row")).toError =
      some ⟨404, JSON.obj [("error", JSON.obj [("kind", JSON.str "item_not_found_error"),
        ("message", JSON.str "X not found"), ("request_id", JSON.str "req-42")])]⟩ :=
  NotFoundError_render
    ⟨[("Content-Type", ["application/json"]), ("X-Request-Id", ["req-42"]),
      ("Vary", ["Origin"])]⟩
    "X not found" (GoError.errorString "no row") "req-42" []
    [("Content-Type", ["application/json"])] [("Vary", ["Origin"])] rfl (by decide)

/-- C6: an error that is neither an `*echo.HTTPError` nor a `KisaError` (the nil error
included) is rendered with status 500, kind `"internal_server_error"`, the message
`"Internal server error!"` and no `fields` member, whatever its text. -/
theorem unknown_error_render (c : Context) (e : GoError)
    (hEcho : isEchoHTTPError e = false) (hKisa : isKisaError e = false) :
    HTTPErrorResponse c e =
      some ⟨500, JSON.obj [("error", JSON.obj [("kind", JSON.str "internal_server_error"),
        ("message", JSON.str "Internal server error!"),
        ("request_id", JSON.str (c.headerGet "X-Request-Id"))])]⟩ := by
  cases e with
  | echoHTTPError code msg i => simp [isEchoHTTPError] at hEcho
  | kerror s k m f ctx err l => simp [isKisaError] at hKisa
  | foreignKisa code k m f t => simp [isKisaError] at hKisa
  | _ => rfl

/-- C6 (witness): a plain `errors.New` value is rendered as the generic internal error. -/
theorem unknown_error_render_witness :
    HTTPErrorResponse ⟨[("X-Request-Id", ["abc"])]⟩
        (GoError.errorString "dial tcp 10.0.0.7:5432: connection refused") =
      some ⟨500, JSON.obj [("error", JSON.obj [("kind", JSON.str "internal_server_error"),
        ("message", JSON.str "Internal server error!"),
        ("request_id", JSON.str "abc")])]⟩ :=
  unknown_error_render ⟨[("X-Request-Id", ["abc"])]⟩
    (GoError.errorString "dial tcp 10.0.0.7:5432: connection refused") rfl rfl

/-! ### Context attachment -/

theorem mapGet_mapSet {α : Type} (m : List (String × α)) (a key : String) (v : α) :
    mapGet (mapSet m a v) key = if a = key then some v else mapGet m key := by
  induction m with
  | nil => simp [mapSet, mapGet]
  | cons x rest ih =>
    obtain ⟨b, y⟩ := x
    by_cases hba : b = a
    · subst hba
      by_cases hk : b = key <;> simp [mapSet, mapGet, hk]
    · by_cases hk : b = key
      · subst hk
        have : ¬ a = b := fun h => hba h.symm
        simp [mapSet, mapGet, hba, this]
      · simp [mapSet, mapGet, hba, hk, ih]

theorem mapSet_ne_nil {α : Type} (m : List (String × α)) (a : String) (v : α) :
    mapSet m a v ≠ [] := by
  cases m with
  | nil => simp [mapSet]
  | cons x rest =>
    obtain ⟨b, y⟩ := x
    simp only [mapSet]
    split <;> simp

theorem pairArgs_length (kvs : List (String × Value)) :
    (pairArgs kvs).length = 2 * kvs.length := by
  induction kvs with
  | nil => rfl
  | cons p rest ih =>
    obtain ⟨a, v⟩ := p
    simp only [pairArgs, List.length_cons, ih]
    omega

theorem withLoop_pairArgs (kvs : List (String × Value)) (context : List (String × Value)) :
    withLoop (pairArgs kvs) context = some (setAll context kvs) := by
  induction kvs generalizing context with
  | nil => rfl
  | cons p rest ih =>
    obtain ⟨a, v⟩ := p
    simp only [pairArgs, withLoop, ih, setAll, List.foldl_cons]

theorem withLoop_odd : ∀ (args : List Value) (context : List (String × Value)),
    args.length % 2 = 1 → withLoop args context = none
  | [], _, h => by simp at h
  | [key], _, _ => by cases key <;> rfl
  | key :: val :: rest, context, h => by
    cases key with
    | str s =>
      simp only [withLoop]
      apply withLoop_odd rest
      simp only [List.length_cons] at h
      omega
    | _ => rfl

theorem mapGet_setAll_notin (kvs context : List (String × Value)) (key : String)
    (h : key ∉ kvs.map Prod.fst) : mapGet (setAll context kvs) key = mapGet context key := by
  induction kvs generalizing context with
  | nil => rfl
  | cons p rest ih =>
    obtain ⟨a, v⟩ := p
    simp only [List.map_cons, List.mem_cons, not_or] at h
    simp only [setAll, List.foldl_cons]
    have := ih (mapSet context a v) h.2
    simp only [setAll] at this
    rw [this, mapGet_mapSet]
    have hne : ¬ a = key := fun e => h.1 e.symm
    simp [hne]

theorem setAll_append (context pre post : List (String × Value)) :
    setAll context (pre ++ post) = setAll (setAll context pre) post := by
  simp [setAll, List.foldl_append]

theorem whatLoop_absent (message : String) (m : List (String × Value))
    (h : mapGet m "what" = none) : whatLoop message m = some message := by
  induction m with
  | nil => rfl
  | cons x rest ih =>
    obtain ⟨a, v⟩ := x
    by_cases ha : a = "what"
    · simp [mapGet, ha] at h
    · simp only [mapGet, ha, if_false] at h
      simp only [whatLoop, ha, if_false]
      exact ih h

theorem whatLoop_present (message s : String) (m : List (String × Value))
    (h : mapGet m "what" = some (Value.str s)) :
    whatLoop message m = some (message ++ ", " ++ s) := by
  induction m with
  | nil => simp [mapGet] at h
  | cons x rest ih =>
    obtain ⟨a, v⟩ := x
    by_cases ha : a = "what"
    · simp only [mapGet, ha, if_true, Option.some.injEq] at h
      subst h
      simp [whatLoop, ha]
    · simp only [mapGet, ha, if_false] at h
      simp only [whatLoop, ha, if_false]
      exact ih h

theorem With_pairArgs (k : Kerror) (kvs : List (String × Value)) :
    k.With (some (pairArgs kvs)) =
      (whatLoop k.Message (setAll [] kvs)).map fun m =>
        { k with Message := m, context := some (setAll [] kvs) } := by
  have hlen : ¬ (pairArgs kvs).length = 1 := by
    rw [pairArgs_length]; omega
  simp only [Kerror.With, hlen, if_false, withLoop_pairArgs, Kerror.messageFromContext]

/-- C4 (code): on every argument list of odd length `With` panics: the loop reads the
value at index `i+1` past the end of the list (or meets a key that is not a string). -/
theorem With_odd_panics (k : Kerror) (args : List Value) (h : args.length % 2 = 1) :
    k.With (some args) = none := by
  simp only [Kerror.With, withLoop_odd args [] h]

/-- C4 (witness): `NotFoundError("user not found", nil).With("id 7")` panics. -/
theorem With_odd_panics_witness :
    [Value.str "id 7"].length % 2 = 1 ∧
      (NotFoundError "user not found" GoError.nil).With (some [Value.str "id 7"]) = none :=
  ⟨rfl, With_odd_panics (NotFoundError "user not found" GoError.nil) [Value.str "id 7"] rfl⟩

/-- C7 (code): for a `*pq.Error` whose code is not `"23505"` the error returned by
`DatabaseError` has no cause: `Unwrap` gives nil, not the original error, while for an
error that is not a `*pq.Error` the cause is the original error. -/
theorem DatabaseError_pq_default_drops_cause :
    (DatabaseError (GoError.pqError "42P01" "relation \"users\" does not exist")
        (some ⟨1⟩)).Unwrap = GoError.nil ∧
      (DatabaseError (GoError.pqError "42P01" "relation \"users\" does not exist")
        (some ⟨1⟩)).Unwrap ≠ GoError.pqError "42P01" "relation \"users\" does not exist" ∧
      (DatabaseError (GoError.errorString "connection reset") (some ⟨1⟩)).Unwrap =
        GoError.errorString "connection reset" := by
  refine ⟨rfl, ?_, rfl⟩
  decide

/-- C8: for every application error with message `m` and every argument list
`key1, value1, ...` of string keys: if the last pair with key `"what"` has a string
value `s`, `With` returns with the message `m ++ ", " ++ s`; if no pair has the key
`"what"` (also when `With` is called without arguments), it returns with the message
`m`. -/
theorem With_what_message (k : Kerror) (kvs : List (String × Value)) :
    (∀ (pre post : List (String × Value)) (s : String),
        kvs = pre ++ ("what", Value.str s) :: post → "what" ∉ post.map Prod.fst →
        ∃ k2, k.With (some (pairArgs kvs)) = some k2 ∧
          k2.Message = k.Message ++ ", " ++ s) ∧
      ("what" ∉ kvs.map Prod.fst →
        ∃ k2, k.With (some (pairArgs kvs)) = some k2 ∧ k2.Message = k.Message) ∧
      (∃ k2, k.With none = some k2 ∧ k2.Message = k.Message) := by
  refine ⟨?_, ?_, ⟨k, rfl, rfl⟩⟩
  · intro pre post s hk hpost
    have hget : mapGet (setAll [] kvs) "what" = some (Value.str s) := by
      rw [hk, setAll_append]
      show mapGet (setAll (setAll [] pre) (("what", Value.str s) :: post)) "what" = _
      have : setAll (setAll [] pre) (("what", Value.str s) :: post) =
          setAll (mapSet (setAll [] pre) "what" (Value.str s)) post := rfl
      rw [this, mapGet_setAll_notin _ _ _ hpost, mapGet_mapSet]
      simp
    rw [With_pairArgs, whatLoop_present _ _ _ hget]
    exact ⟨_, rfl, rfl⟩
  · intro hno
    have hget : mapGet (setAll [] kvs) "what" = none := by
      rw [mapGet_setAll_notin _ _ _ hno]; rfl
    rw [With_pairArgs, whatLoop_absent _ _ hget]
    exact ⟨_, rfl, rfl⟩

/-- C8 (witness): with the key `"what"` given twice, the value of the last one is
appended; without it the message stays. -/
theorem With_what_message_witness :
    (∃ k2, (NotFoundError "user not found" GoError.nil).With
        (some (pairArgs [("what", Value.str "first"), ("id", Value.int 7),
          ("what", Value.str "in tenant 3")])) = some k2 ∧
        k2.Message = "user not found" ++ ", " ++ "in tenant 3") ∧
      (∃ k2, (NotFoundError "user not found" GoError.nil).With
        (some (pairArgs [("id", Value.int 7)])) = some k2 ∧
        k2.Message = "user not found") :=
  ⟨(With_what_message (NotFoundError "user not found" GoError.nil)
      [("what", Value.str "first"), ("id", Value.int 7),
        ("what", Value.str "in tenant 3")]).1
      [("what", Value.str "first"), ("id", Value.int 7)] [] "in tenant 3" rfl (by simp),
   (With_what_message (NotFoundError "user not found" GoError.nil)
      [("id", Value.int 7)]).2.1 (by decide)⟩

/-- C9 (code): `With` called with a single argument panics, whatever the error and the
argument: the message is rewritten first, then the loop reads index 1 of a list of
length 1 (or the argument is not a string key). -/
theorem With_single_argument_panics (k : Kerror) (a : Value) :
    k.With (some [a]) = none := by
  simp only [Kerror.With, withLoop_odd [a] [] rfl]

/-! ### Validation errors -/

theorem callError_of_ne_nil (e : GoError) (h : e ≠ GoError.nil) :
    callError e = some (errorText e) := by
  cases e with
  | nil => exact absurd rfl h
  | _ => rfl

theorem fieldsLoop_returns (vf : List FieldValidationError)
    (h : ∀ f ∈ vf, f.Error ≠ GoError.nil) (acc : List (String × String)) :
    ∃ fields, fieldsLoop vf acc = some fields ∧ (vf = [] → fields = acc) ∧
      (vf ≠ [] ∨ acc ≠ [] → fields ≠ []) := by
  induction vf generalizing acc with
  | nil => exact ⟨acc, rfl, fun _ => rfl, fun h => h.resolve_left (fun h => h rfl)⟩
  | cons f rest ih =>
    have hf : f.Error ≠ GoError.nil := h f (List.mem_cons_self _ _)
    have hrest : ∀ g ∈ rest, g.Error ≠ GoError.nil :=
      fun g hg => h g (List.mem_cons_of_mem _ hg)
    obtain ⟨fields, h1, _, h3⟩ := ih hrest (mapSet acc f.FieldName (errorText f.Error))
    refine ⟨fields, ?_, fun hnil => absurd hnil (List.cons_ne_nil _ _), fun _ => ?_⟩
    · simp only [fieldsLoop, callError_of_ne_nil _ hf, h1]
    · exact h3 (Or.inr (mapSet_ne_nil _ _ _))

theorem insertByKey_ne_nil (e : String × String) (l : List (String × String)) :
    insertByKey e l ≠ [] := by
  cases l with
  | nil => simp [insertByKey]
  | cons x rest =>
    simp only [insertByKey]
    split <;> simp

theorem validation_render (c : Context) (m : String)
    (fields : List (String × String)) (ctx : LogContext) (e : GoError)
    (l : Option Logger) :
    ∃ resp, HTTPErrorResponse c
        (Kerror.mk 400 "input_validation_error" m (some fields) ctx e l).toError =
          some resp ∧
      (fields = [] → resp.fields = none) ∧
      (fields ≠ [] → ∃ ms, ms ≠ [] ∧ resp.fields = some (JSON.obj ms)) := by
  cases fields with
  | nil =>
    exact ⟨⟨400, plainBody "input_validation_error" m (c.headerGet "X-Request-Id")⟩, rfl,
      fun _ => rfl, fun h => absurd rfl h⟩
  | cons x rest =>
    refine ⟨⟨400, JSON.obj [("error", JSON.obj [("kind", JSON.str "input_validation_error"),
        ("message", JSON.str m), ("request_id", JSON.str (c.headerGet "X-Request-Id")),
        ("fields", marshalFields (x :: rest))])]⟩, rfl,
      fun h => absurd h (List.cons_ne_nil _ _), fun _ => ?_⟩
    refine ⟨(sortByKey (x :: rest)).map fun p => (p.1, JSON.str p.2), ?_, ?_⟩
    · simp only [sortByKey, ne_eq, List.map_eq_nil_iff]
      exact insertByKey_ne_nil _ _
    · rfl

/-- C10: for every list `vf` of field validation errors with non-nil messages,
`ValidationError(vf)` returns and its error is rendered; the body has a `fields` member
holding a non-empty object if `vf` is not empty, and no `fields` member if `vf` is
empty. -/
theorem ValidationError_fields_rendered (c : Context) (vf : validationFields)
    (h : ∀ f ∈ vf, f.Error ≠ GoError.nil) :
    ∃ k resp, ValidationError vf = some k ∧ HTTPErrorResponse c k.toError = some resp ∧
      (vf ≠ [] → ∃ ms, ms ≠ [] ∧ resp.fields = some (JSON.obj ms)) ∧
      (vf = [] → resp.fields = none ∧ "fields" ∉ (resp.Body.field "error").elim [] JSON.keys)
    := by
  obtain ⟨fields, h1, h2, h3⟩ := fieldsLoop_returns vf h []
  obtain ⟨resp, hr, hr1, hr2⟩ := validation_render c
    "could not validate one or more of the submitted fields" fields none GoError.nil none
  refine ⟨_, resp, ?_, hr, ?_, ?_⟩
  · simp only [ValidationError, Kerror.setValidationFields, h1, Option.map_some']
    rfl
  · intro hne
    exact hr2 (h3 (Or.inl hne))
  · intro hnil
    refine ⟨hr1 (h2 hnil), ?_⟩
    rw [h2 hnil] at hr
    have : resp = ⟨400, plainBody "input_validation_error"
        "could not validate one or more of the submitted fields"
        (c.headerGet "X-Request-Id")⟩ := by
      have hr0 : HTTPErrorResponse c (Kerror.mk 400 "input_validation_error"
          "could not validate one or more of the submitted fields" (some []) none
          GoError.nil none).toError = some ⟨400, plainBody "input_validation_error"
            "could not validate one or more of the submitted fields"
            (c.headerGet "X-Request-Id")⟩ := rfl
      rw [hr0] at hr
      exact (Option.some.inj hr).symm
    subst this
    simp [JSON.field, plainBody, JSON.members, mapGet, JSON.keys]

/-- C10 (witness): one failed field gives a `fields` object with one member, and the
empty list gives a body without `fields`. -/
theorem ValidationError_fields_rendered_witness :
    (∃ k resp,
        ValidationError [⟨"email", GoError.errorString "email is a required field"⟩] =
          some k ∧
        HTTPErrorResponse ⟨[]⟩ k.toError = some resp ∧
        ∃ ms, ms ≠ [] ∧ resp.fields = some (JSON.obj ms)) ∧
      (∃ k resp, ValidationError [] = some k ∧
        HTTPErrorResponse ⟨[]⟩ k.toError = some resp ∧ resp.fields = none) := by
  constructor
  · obtain ⟨k, resp, h1, h2, h3, _⟩ := ValidationError_fields_rendered ⟨[]⟩
      [⟨"email", GoError.errorString "email is a required field"⟩] (by
        intro f hf
        simp only [List.mem_singleton] at hf
        subst hf
        simp)
    exact ⟨k, resp, h1, h2, h3 (by simp)⟩
  · obtain ⟨k, resp, h1, h2, _, h4⟩ := ValidationError_fields_rendered ⟨[]⟩ []
      (fun f hf => absurd hf (List.not_mem_nil f))
    exact ⟨k, resp, h1, h2, (h4 rfl).1⟩


/-! ### The field map and the kind -/

theorem Is_kerror (s : Int) (kind m : String) (f : Option (List (String × String)))
    (ctx : LogContext) (e : GoError) (l : Option Logger) (k : Kind) :
    Is (GoError.kerror s kind m f ctx e l) k = (kind == Kind.String k) := rfl

theorem Is_toError (k : Kerror) (kd : Kind) : Is k.toError kd = (k.Kind == Kind.String kd) :=
  rfl

theorem classify_kerror (k : Kerror) :
    classify k.toError =
      some { Code := k.Status, Kind := k.Kind,
             Message := if k.Kind = "internal_server_error" then "Internal server error!"
                        else k.Message,
             RequestID := "",
             Fields := if k.Kind = "input_validation_error" then k.Fields else none } := by
  cases k with
  | mk s kind m f ctx e l =>
    simp only [Kerror.toError, classify, isKisaError, if_true, asKerror, Is_kerror,
      Kerror.Code, Kerror.GetMessage, Kerror.GetValidationFields, beq_iff_eq]
    by_cases h : kind = "internal_server_error"
    · subst h
      rfl
    · have h2 : ¬ kind = Kind.String ErrInternalServer := h
      simp only [h, h2, if_false]
      rfl

theorem classify_fields (e : GoError) (res : httpErrorResponse) (h : classify e = some res)
    (hf : res.Fields ≠ none) : res.Kind = "input_validation_error" := by
  cases e with
  | kerror s kind m f ctx err l =>
    have := classify_kerror ⟨s, kind, m, f, ctx, err, l⟩
    simp only [Kerror.toError] at this
    rw [this] at h
    simp only [Option.some.injEq] at h
    subst h
    simp only at hf ⊢
    by_cases hk : kind = "input_validation_error"
    · exact hk
    · simp [hk] at hf
  | foreignKisa code kind m f t => simp [classify, isKisaError, asKerror] at h
  | echoHTTPError code msg i =>
    simp only [classify, Option.some.injEq] at h
    subst h
    exact absurd rfl hf
  | _ =>
    simp only [classify, isKisaError, Bool.false_eq_true, if_false, InternalServerError,
      newKisa, Kerror.toError, asKerror, Is_kerror] at h
    revert h
    intro h
    have := Option.some.inj h
    subst this
    exact absurd rfl hf


theorem response_of_classify (c : Context) (e : GoError) (resp : Response)
    (h : HTTPErrorResponse c e = some resp) :
    ∃ res, classify e = some res ∧ resp.kind = some (JSON.str res.Kind) ∧
      (resp.fields ≠ none → res.Fields ≠ none) := by
  unfold HTTPErrorResponse at h
  cases hc : classify e with
  | none => simp [hc] at h
  | some res =>
    simp only [hc, Option.some_bind] at h
    have hb := JSON_sent _ _ _ _ h
    refine ⟨res, rfl, ?_, ?_⟩
    · simp [Response.kind, hb, JSON.field, JSON.members, mapGet, httpErrorResponse.marshal]
    · intro hf hnone
      apply hf
      simp [Response.fields, hb, JSON.field, JSON.members, mapGet,
        httpErrorResponse.marshal, hnone]

theorem Tokerror_kerror (k : Kerror) :
    Tokerror k.toError =
      some (some { Status := k.Status, Kind := k.Kind, Message := k.Message,
                   Fields := if k.Kind = "input_validation_error" then k.Fields else none,
                   context := none, err := GoError.nil, logger := none }) := by
  cases k with
  | mk s kind m f ctx e l =>
    simp only [Kerror.toError, Tokerror, tokerrorBody, Is_kerror, ne_eq, beq_iff_eq]
    by_cases h : kind = "input_validation_error"
    · subst h
      have h2 : "input_validation_error" = Kind.String ErrValidation := rfl
      simp [← h2]
    · have h2 : ¬ kind = Kind.String ErrValidation := h
      simp [h, h2]

theorem Tokerror_fields (e : GoError) (k : Kerror) (h : Tokerror e = some (some k)) :
    FieldsOnlyIfValidation k := by
  cases e with
  | kerror s kind m f ctx err l =>
    have := Tokerror_kerror ⟨s, kind, m, f, ctx, err, l⟩
    simp only [Kerror.toError] at this
    rw [this] at h
    simp only [Option.some.injEq] at h
    subst h
    intro hf
    by_cases hk : kind = "input_validation_error"
    · exact hk
    · simp [hk] at hf
  | foreignKisa code kind m f t =>
    simp only [Tokerror, tokerrorBody, Is, asKerror, ne_eq, reduceCtorEq, not_false_eq_true,
      if_true, Bool.false_eq_true, if_false, Option.some.injEq] at h
    subst h
    intro hf
    exact absurd rfl hf
  | _ => simp [Tokerror] at h

theorem Constructed_fields (k : Kerror) (h : Constructed k) :
    k.Fields ≠ none ↔ ∃ vf, ValidationError vf = some k := by
  constructor
  · intro hf
    cases h with
    | validation vf k h => exact ⟨vf, h⟩
    | database e log =>
      exfalso
      apply hf
      unfold DatabaseError
      split
      · rfl
      · split
        · split <;> rfl
        · rfl
    | _ => exact absurd rfl hf
  · rintro ⟨vf, hv⟩
    unfold ValidationError Kerror.setValidationFields at hv
    cases hl : fieldsLoop vf [] with
    | none => simp [hl] at hv
    | some fields =>
      simp only [hl, Option.map_some', Option.some.injEq] at hv
      subst hv
      simp


theorem HTTPErrorResponse_returns_kerror (c : Context) (k : Kerror)
    (hlo : 100 ≤ k.Status) (hhi : k.Status ≤ 999) :
    ∃ resp, HTTPErrorResponse c k.toError = some resp := by
  simp only [HTTPErrorResponse, classify_kerror k, Option.some_bind]
  rw [JSON_valid_code _ _ _ hlo hhi]
  exact ⟨_, rfl⟩

theorem HTTPErrorResponse_returns_echo (c : Context) (code : Int) (m : Value)
    (internal : GoError) (hlo : 100 ≤ code) (hhi : code ≤ 999) :
    ∃ resp, HTTPErrorResponse c (GoError.echoHTTPError code m internal) = some resp := by
  simp only [HTTPErrorResponse, classify, Option.some_bind]
  rw [JSON_valid_code _ _ _ hlo hhi]
  exact ⟨_, rfl⟩

theorem HTTPErrorResponse_returns_unknown (c : Context) (e : GoError)
    (hEcho : isEchoHTTPError e = false) (hKisa : isKisaError e = false) :
    ∃ resp, HTTPErrorResponse c e = some resp := by
  cases e with
  | echoHTTPError code msg i => simp [isEchoHTTPError] at hEcho
  | kerror s k m f ctx err l => simp [isKisaError] at hKisa
  | foreignKisa code k m f t => simp [isKisaError] at hKisa
  | _ => exact ⟨_, rfl⟩

/-- C11: the field map is set only if the kind is `"input_validation_error"`: this holds
of every constructor result (where the field map is set exactly by `ValidationError`), is
preserved by `With`, holds of the output of `Tokerror`, and the response of
`HTTPErrorResponse` has a `fields` member only with the kind `"input_validation_error"`,
for every input error, also one whose `Fields` was filled in by hand. `Tokerror` returns
on every `*Kerror`; `HTTPErrorResponse` returns on every `*Kerror` and `*echo.HTTPError`
whose status code can be sent (100 to 999) and on every error of neither type. -/
theorem fields_only_if_validation_invariant :
    (∀ k : Kerror, Constructed k →
      FieldsOnlyIfValidation k ∧ (k.Fields ≠ none ↔ ∃ vf, ValidationError vf = some k)) ∧
    (∀ (k k2 : Kerror) (args : Option (List Value)), FieldsOnlyIfValidation k →
      k.With args = some k2 → FieldsOnlyIfValidation k2) ∧
    (∀ (e : GoError) (k : Kerror), Tokerror e = some (some k) →
      FieldsOnlyIfValidation k) ∧
    (∀ k : Kerror, ∃ k2, Tokerror k.toError = some (some k2)) ∧
    (∀ (c : Context) (e : GoError) (resp : Response), HTTPErrorResponse c e = some resp →
      resp.fields ≠ none → resp.kind = some (JSON.str "input_validation_error")) ∧
    (∀ (c : Context) (k : Kerror), 100 ≤ k.Status → k.Status ≤ 999 →
      ∃ resp, HTTPErrorResponse c k.toError = some resp) ∧
    (∀ (c : Context) (code : Int) (m : Value) (internal : GoError), 100 ≤ code →
      code ≤ 999 →
      ∃ resp, HTTPErrorResponse c (GoError.echoHTTPError code m internal) = some resp) ∧
    (∀ (c : Context) (e : GoError), isEchoHTTPError e = false → isKisaError e = false →
      ∃ resp, HTTPErrorResponse c e = some resp) := by
  refine ⟨?_, ?_, Tokerror_fields, fun k => ⟨_, Tokerror_kerror k⟩, ?_,
    HTTPErrorResponse_returns_kerror, HTTPErrorResponse_returns_echo,
    HTTPErrorResponse_returns_unknown⟩
  · intro k hk
    have hiff := Constructed_fields k hk
    refine ⟨fun hf => ?_, hiff⟩
    obtain ⟨vf, hv⟩ := hiff.1 hf
    exact (ValidationError_pair vf k hv).1
  · intro k k2 args hinv hw hf
    obtain ⟨_, h2, h3, _⟩ := With_frame k k2 args hw
    rw [h2]
    exact hinv (by rw [← h3]; exact hf)
  · intro c e resp h hf
    obtain ⟨res, hc, hkind, hfields⟩ := response_of_classify c e resp h
    rw [hkind, classify_fields e res hc (hfields hf)]

/-- C11 (witness): a not-found error whose `Fields` was filled in by hand is rendered,
and its response has no `fields` member; the error of `ValidationError` keeps the
invariant through `With`. -/
theorem fields_only_if_validation_invariant_witness :
    (∃ resp, HTTPErrorResponse ⟨[]⟩
        (Kerror.mk 404 "item_not_found_error" "no such user"
          (some [("email", "is required")]) none GoError.nil none).toError = some resp ∧
        resp.fields = none) ∧
      FieldsOnlyIfValidation
        (Kerror.mk 400 "input_validation_error"
          "could not validate one or more of the submitted fields, signup"
          (some [("email", "is required")]) (some [("what", Value.str "signup")])
          GoError.nil none) := by
  refine ⟨?_, ?_⟩
  · obtain ⟨resp, hr⟩ := fields_only_if_validation_invariant.2.2.2.2.2.1 ⟨[]⟩
      (Kerror.mk 404 "item_not_found_error" "no such user"
        (some [("email", "is required")]) none GoError.nil none)
      (by decide) (by decide)
    refine ⟨resp, hr, ?_⟩
    by_contra hne
    have hk := fields_only_if_validation_invariant.2.2.2.2.1 _ _ resp hr hne
    have hr2 : HTTPErrorResponse ⟨[]⟩
        (Kerror.mk 404 "item_not_found_error" "no such user"
          (some [("email", "is required")]) none GoError.nil none).toError =
        some ⟨404, plainBody "item_not_found_error" "no such user" ""⟩ := rfl
    rw [hr2] at hr
    have := Option.some.inj hr
    subst this
    simp [Response.kind, plainBody, JSON.field, JSON.members, mapGet] at hk
  · exact fields_only_if_validation_invariant.2.1
      (Kerror.mk 400 "input_validation_error"
        "could not validate one or more of the submitted fields"
        (some [("email", "is required")]) none GoError.nil none) _
      (some [Value.str "what", Value.str "signup"])
      (fun _ => rfl) rfl

/-! ### The frame of `With` -/

theorem mapGet_setAll_mem (kvs context : List (String × Value)) (key : String) (v : Value)
    (h : mapGet (setAll context kvs) key = some v) :
    (key, v) ∈ kvs ∨ mapGet context key = some v := by
  induction kvs generalizing context with
  | nil => exact Or.inr h
  | cons p rest ih =>
    obtain ⟨a, w⟩ := p
    have h2 : mapGet (setAll (mapSet context a w) rest) key = some v := h
    rcases ih _ h2 with hmem | hget
    · exact Or.inl (List.mem_cons_of_mem _ hmem)
    · rw [mapGet_mapSet] at hget
      by_cases ha : a = key
      · simp only [ha, if_true, Option.some.injEq] at hget
        subst hget
        subst ha
        exact Or.inl (List.mem_cons_self _ _)
      · simp only [ha, if_false] at hget
        exact Or.inr hget

theorem whatLoop_returns (message : String) (m : List (String × Value))
    (h : ∀ v, mapGet m "what" = some v → ∃ s, v = Value.str s) :
    ∃ msg, whatLoop message m = some msg := by
  cases hg : mapGet m "what" with
  | none => exact ⟨_, whatLoop_absent message m hg⟩
  | some v =>
    obtain ⟨s, hs⟩ := h v hg
    subst hs
    exact ⟨_, whatLoop_present message s m hg⟩

theorem With_pairArgs_returns (k : Kerror) (kvs : List (String × Value))
    (hwhat : ∀ q ∈ kvs, q.1 = "what" → ∃ s, q.2 = Value.str s) :
    ∃ k2, k.With (some (pairArgs kvs)) = some k2 := by
  obtain ⟨msg, hmsg⟩ := whatLoop_returns k.Message (setAll [] kvs) (by
    intro v hv
    rcases mapGet_setAll_mem kvs [] "what" v hv with hmem | hnil
    · exact hwhat _ hmem rfl
    · simp [mapGet] at hnil)
  rw [With_pairArgs, hmsg]
  exact ⟨_, rfl⟩

/-- C12: for every application error at a pointer `p` and every argument list
`key1, value1, ...` of string keys whose values under `"what"` are strings, `With` returns
the pointer `p` itself, changes no other struct, and leaves status, kind, field map,
wrapped cause (and logger) of the error unchanged; called without arguments it changes
nothing. -/
theorem With_returns_receiver (st : Store) (p : Nat) (k : Kerror)
    (kvs : List (String × Value)) (hp : st[p]? = some k)
    (hwhat : ∀ q ∈ kvs, q.1 = "what" → ∃ s, q.2 = Value.str s) :
    (∃ k2, k.With (some (pairArgs kvs)) = some k2 ∧
        WithAt st p (some (pairArgs kvs)) = some (st.set p k2, p) ∧
        k2.Status = k.Status ∧ k2.Kind = k.Kind ∧ k2.Fields = k.Fields ∧ k2.err = k.err ∧
        k2.logger = k.logger) ∧
      WithAt st p none = some (st, p) ∧ k.With none = some k := by
  refine ⟨?_, rfl, rfl⟩
  obtain ⟨k2, hk2⟩ := With_pairArgs_returns k kvs hwhat
  obtain ⟨h1, h2, h3, h4, h5⟩ := With_frame k k2 _ hk2
  refine ⟨k2, hk2, ?_, h1, h2, h3, h4, h5⟩
  simp only [WithAt, hp, hk2, Option.map_some']

/-- C12 (witness): `With("what", "in tenant 3", "id", 7)` on a not-found error at
address 0 returns address 0 and changes only message and context. -/
theorem With_returns_receiver_witness :
    (∃ k2, (NotFoundError "user not found" GoError.nil).With
          (some (pairArgs [("what", Value.str "in tenant 3"), ("id", Value.int 7)])) =
          some k2 ∧
        WithAt [NotFoundError "user not found" GoError.nil] 0
          (some (pairArgs [("what", Value.str "in tenant 3"), ("id", Value.int 7)])) =
          some ([NotFoundError "user not found" GoError.nil].set 0 k2, 0) ∧
        k2.Status = 404 ∧ k2.Kind = "item_not_found_error" ∧ k2.Fields = none ∧
        k2.err = GoError.nil ∧ k2.logger = none) :=
  (With_returns_receiver [NotFoundError "user not found" GoError.nil] 0
    (NotFoundError "user not found" GoError.nil)
    [("what", Value.str "in tenant 3"), ("id", Value.int 7)] rfl (by
      intro q hq hw
      simp only [List.mem_cons, List.mem_singleton, List.not_mem_nil, or_false] at hq
      rcases hq with rfl | rfl
      · exact ⟨"in tenant 3", rfl⟩
      · simp at hw)).1

/-- C14 (counterexample): an `*echo.HTTPError` with code 0 is rendered with status 200,
not 0, and for one with code 1000 no response is sent (`WriteHeader` panics). -/
theorem echo_error_status_counterexample :
    (HTTPErrorResponse ⟨[]⟩
        (GoError.echoHTTPError 0 (Value.str "no code") GoError.nil)).map
        (fun r => r.Status) = some 200 ∧
      (HTTPErrorResponse ⟨[]⟩
        (GoError.echoHTTPError 0 (Value.str "no code") GoError.nil)).map
        (fun r => r.Status) ≠ some 0 ∧
      (HTTPErrorResponse ⟨[]⟩
        (GoError.echoHTTPError 1000 (Value.str "bad code") GoError.nil)).map
        (fun r => r.Status) = none := by
  refine ⟨rfl, ?_, rfl⟩
  decide

/-- C14 (amended): an `*echo.HTTPError` with a code `c` that can be sent (100 to 999)
and message `m` is rendered with status `c`, kind `"server_error"`, the text of `m` as
message (a string itself, a number in decimal, a boolean as `true` or `false`, nil as
`<nil>`) and no `fields` member, whatever its internal error; the message is kept also
when the code is 500. -/
theorem echo_error_render (c : Context) (code : Int) (m : Value) (internal : GoError)
    (hlo : 100 ≤ code) (hhi : code ≤ 999) :
    ∃ text : String,
      HTTPErrorResponse c (GoError.echoHTTPError code m internal) =
        some ⟨code, JSON.obj [("error", JSON.obj [("kind", JSON.str "server_error"),
          ("message", JSON.str text),
          ("request_id", JSON.str (c.headerGet "X-Request-Id"))])]⟩ ∧
      HTTPErrorResponse c (GoError.echoHTTPError 500 m internal) =
        some ⟨500, JSON.obj [("error", JSON.obj [("kind", JSON.str "server_error"),
          ("message", JSON.str text),
          ("request_id", JSON.str (c.headerGet "X-Request-Id"))])]⟩ ∧
      (∀ s : String, m = Value.str s → text = s) ∧
      (∀ n : Int, m = Value.int n → text = toString n) ∧
      (∀ b : Bool, m = Value.bool b → text = if b then "true" else "false") ∧
      (m = Value.nil → text = "<nil>") ∧
      (∀ t : String, m = Value.other t → text = t) := by
  refine ⟨m.format, ?_, rfl, ?_, ?_, ?_, ?_, ?_⟩
  · simp only [HTTPErrorResponse, classify, Option.some_bind]
    rw [JSON_valid_code _ _ _ hlo hhi]
    rfl
  · rintro s rfl
    rfl
  · rintro n rfl
    rfl
  · rintro b rfl
    rfl
  · rintro rfl
    rfl
  · rintro t rfl
    rfl

/-- C14 (witness): the error `echo.NewHTTPError(500, "upstream failed")` is rendered with
status 500 and its own message, with the request id of the header. -/
theorem echo_error_render_witness :
    HTTPErrorResponse ⟨[("Content-Type", ["text/plain"]), ("X-Request-Id", ["r-9"])]⟩
        (GoError.echoHTTPError 500 (Value.str "upstream failed") GoError.nil) =
      some ⟨500, JSON.obj [("error", JSON.obj [("kind", JSON.str "server_error"),
        ("message", JSON.str "upstream failed"), ("request_id", JSON.str "r-9")])]⟩ := by
  obtain ⟨text, h, _, hs, _⟩ :=
    echo_error_render ⟨[("Content-Type", ["text/plain"]), ("X-Request-Id", ["r-9"])]⟩ 500
      (Value.str "upstream failed") GoError.nil (by decide) (by decide)
  rw [h, hs "upstream failed" rfl]
  rfl

/-! ### Field names -/

theorem SplitN2_comma (pre post : String) (h : ',' ∉ pre.data) :
    SplitN2 (pre ++ "," ++ post) = [pre, post] := by
  have hpos : ∀ a ∈ pre.data, (fun ch : Char => ch != ',') a = true := by
    intro a ha
    simp only [bne_iff_ne, ne_eq]
    rintro rfl
    exact h ha
  have hdata : (pre ++ "," ++ post).data = pre.data ++ (',' :: post.data) := by
    simp [String.data_append]
  simp only [SplitN2, hdata, List.span_eq_take_drop, List.takeWhile_append_of_pos hpos,
    List.dropWhile_append_of_pos hpos]
  simp [List.takeWhile, List.dropWhile]

theorem SplitN2_no_comma (t : String) (h : ',' ∉ t.data) : SplitN2 t = [t] := by
  have hall : ∀ a ∈ t.data, (fun ch : Char => ch != ',') a = true := by
    intro a ha
    simp only [bne_iff_ne, ne_eq]
    rintro rfl
    exact h ha
  simp only [SplitN2, List.span_eq_take_drop, List.takeWhile_eq_self_iff.2 hall,
    List.dropWhile_eq_nil_iff.2 hall]

/-- C13: for a struct field whose json tag value is `t`, `GetJSONTag` returns the part of
`t` before its first comma (all of `t` when it has no comma), and the empty string when
that part is `"-"`; the tags `email` and `email,omitempty` give `"email"`, and a field
without json tag gives the empty string. -/
theorem GetJSONTag_name (fld : StructField) (t : String) (ht : fld.tagGet "json" = t) :
    (∀ pre post : String, t = pre ++ "," ++ post → ',' ∉ pre.data →
        GetJSONTag fld = some (if pre = "-" then "" else pre)) ∧
      (',' ∉ t.data → GetJSONTag fld = some (if t = "-" then "" else t)) ∧
      GetJSONTag ⟨"Email", [("json", "email")]⟩ = some "email" ∧
      GetJSONTag ⟨"Email", [("json", "email,omitempty")]⟩ = some "email" ∧
      GetJSONTag ⟨"Email", [("validate", "required")]⟩ = some "" := by
  refine ⟨?_, ?_, by decide, by decide, by decide⟩
  · intro pre post hsplit hpre
    simp only [GetJSONTag, ht, hsplit, SplitN2_comma pre post hpre]
  · intro hno
    simp only [GetJSONTag, ht, SplitN2_no_comma t hno]

/-- C13 (witness): the tag value `name,omitempty` gives `"name"` and the tag value `-`
gives the empty string. -/
theorem GetJSONTag_name_witness :
    GetJSONTag ⟨"Name", [("json", "name,omitempty")]⟩ = some "name" ∧
      GetJSONTag ⟨"Secret", [("json", "-")]⟩ = some "" :=
  ⟨(GetJSONTag_name ⟨"Name", [("json", "name,omitempty")]⟩ "name,omitempty" rfl).1
      "name" "omitempty" (by decide) (by decide),
   (GetJSONTag_name ⟨"Secret", [("json", "-")]⟩ "-" rfl).2.1 (by decide)⟩


/-! ### The context of successive calls of `With` -/

theorem With_pairArgs_context (k k2 : Kerror) (kvs : List (String × Value))
    (h : k.With (some (pairArgs kvs)) = some k2) : k2.context = some (setAll [] kvs) := by
  rw [With_pairArgs] at h
  cases hw : whatLoop k.Message (setAll [] kvs) with
  | none => simp [hw] at h
  | some m =>
    simp only [hw, Option.map_some', Option.some.injEq] at h
    subst h
    rfl

theorem mapGet_setAll_last (kvs context : List (String × Value)) (key : String) :
    mapGet (setAll context kvs) key =
      match mapGet kvs.reverse key with
      | some v => some v
      | none => mapGet context key := by
  induction kvs using List.reverseRecOn with
  | nil => rfl
  | append_singleton l p ih =>
    obtain ⟨a, w⟩ := p
    rw [setAll_append]
    have hstep : setAll (setAll context l) [(a, w)] = mapSet (setAll context l) a w := rfl
    rw [hstep, mapGet_mapSet, List.reverse_append]
    simp only [List.reverse_cons, List.reverse_nil, List.nil_append, List.singleton_append,
      mapGet]
    by_cases ha : a = key
    · simp [ha]
    · simp only [ha, if_false]
      exact ih

/-- C15 (counterexample): after `With("user", "ann")` and then `With("order", "7")` the
log context holds only the pair of the second call; the key `"user"` is gone. -/
theorem With_context_replaced_counterexample :
    (((NotFoundError "not found" GoError.nil).With
          (some [Value.str "user", Value.str "ann"])).bind
        fun k1 => k1.With (some [Value.str "order", Value.str "7"])).map
        (fun k2 => k2.context) = some (some [("order", Value.str "7")]) ∧
      mapGet [("order", Value.str "7")] "user" = none := by
  decide

/-- C15 (amended): each call of `With` with arguments replaces the log context. For
argument lists `a` and `b` of string-keyed pairs (with string values under `"what"`):
after `With(a...)` followed by `With(b...)` with `b` passed as arguments, both calls
return and the log context holds, for every key, the value of the last pair of `b` with
that key, and no other key, so the pairs of `a` are not kept; after `With(a...)` followed
by `With()` without arguments the second call changes nothing and the context holds the
pairs of `a`; and after `With()` followed by `With(b...)` it holds the pairs of `b`. -/
theorem With_context_latest (k : Kerror) (a b : List (String × Value))
    (ha : ∀ q ∈ a, q.1 = "what" → ∃ s, q.2 = Value.str s)
    (hb : ∀ q ∈ b, q.1 = "what" → ∃ s, q.2 = Value.str s) :
    (∃ k1 k2 ctx, k.With (some (pairArgs a)) = some k1 ∧
      k1.With (some (pairArgs b)) = some k2 ∧ k2.context = some ctx ∧
      ∀ key, mapGet ctx key = mapGet b.reverse key) ∧
    (∃ k1 ctx, k.With (some (pairArgs a)) = some k1 ∧ k1.With none = some k1 ∧
      k1.context = some ctx ∧ ∀ key, mapGet ctx key = mapGet a.reverse key) ∧
    (∃ k2 ctx, k.With none = some k ∧ k.With (some (pairArgs b)) = some k2 ∧
      k2.context = some ctx ∧ ∀ key, mapGet ctx key = mapGet b.reverse key) := by
  have hlast : ∀ (kvs : List (String × Value)) (key : String),
      mapGet (setAll [] kvs) key = mapGet kvs.reverse key := by
    intro kvs key
    rw [mapGet_setAll_last]
    cases mapGet kvs.reverse key <;> rfl
  obtain ⟨k1, h1⟩ := With_pairArgs_returns k a ha
  obtain ⟨k2, h2⟩ := With_pairArgs_returns k1 b hb
  obtain ⟨k3, h3⟩ := With_pairArgs_returns k b hb
  exact ⟨⟨k1, k2, setAll [] b, h1, h2, With_pairArgs_context k1 k2 b h2, hlast b⟩,
    ⟨k1, setAll [] a, h1, rfl, With_pairArgs_context k k1 a h1, hlast a⟩,
    ⟨k3, setAll [] b, rfl, h3, With_pairArgs_context k k3 b h3, hlast b⟩⟩

/-- C15 (witness): after `With("user", "ann")` and `With("order", 7)` the context has
the value 7 under `"order"` and nothing under `"user"`; after `With("user", "ann")` and
`With()` it still has `"ann"` under `"user"`. -/
theorem With_context_latest_witness :
    (∃ k1 k2 ctx, (NotFoundError "not found" GoError.nil).With
          (some (pairArgs [("user", Value.str "ann")])) = some k1 ∧
      k1.With (some (pairArgs [("order", Value.int 7)])) = some k2 ∧
      k2.context = some ctx ∧
      mapGet ctx "order" = some (Value.int 7) ∧ mapGet ctx "user" = none) ∧
    (∃ k1 ctx, (NotFoundError "not found" GoError.nil).With
          (some (pairArgs [("user", Value.str "ann")])) = some k1 ∧
      k1.With none = some k1 ∧ k1.context = some ctx ∧
      mapGet ctx "user" = some (Value.str "ann")) := by
  obtain ⟨⟨k1, k2, ctx, h1, h2, h3, h4⟩, ⟨k1b, ctxb, g1, g2, g3, g4⟩, _⟩ :=
    With_context_latest (NotFoundError "not found" GoError.nil)
      [("user", Value.str "ann")] [("order", Value.int 7)]
      (by
        intro q hq hw
        simp only [List.mem_singleton] at hq
        subst hq
        simp at hw)
      (by
        intro q hq hw
        simp only [List.mem_singleton] at hq
        subst hq
        simp at hw)
  exact ⟨⟨k1, k2, ctx, h1, h2, h3, by rw [h4]; decide, by rw [h4]; decide⟩,
    ⟨k1b, ctxb, g1, g2, g3, by rw [g4]; decide⟩⟩

/-! ### Kinds and `Is` -/

theorem Kind_String_injective :
    ∀ a b : Kind, a ≤ 13 → b ≤ 13 → Kind.String a = Kind.String b → a = b := by
  intro a b ha hb h
  interval_cases a <;> interval_cases b <;> first | rfl | (exact absurd h (by decide))

theorem Kind_String_defined_ne_default :
    ∀ a : Kind, a ≤ 13 → Kind.String a ≠ "unkown_error" := by
  intro a ha
  interval_cases a <;> decide

theorem Kind_String_eq_iff (c k : Kind) (hc : c ≤ 13) :
    Kind.String c = Kind.String k ↔ c = k := by
  constructor
  · intro h
    by_cases hk : k ≤ 13
    · exact Kind_String_injective c k hc hk h
    · exfalso
      have hk14 : (14 : Nat) ≤ k := Nat.lt_of_not_le hk
      obtain ⟨n, rfl⟩ : ∃ n : Nat, k = n + 14 :=
        ⟨k - 14, (Nat.sub_add_cancel hk14).symm⟩
      exact Kind_String_defined_ne_default c hc h
  · rintro rfl
    rfl

theorem Is_iff_kind (v : Kerror) (c : Kind) (hc : c ≤ 13) (hv : v.Kind = Kind.String c)
    (k : Kind) : Is v.toError k = true ↔ k = c := by
  rw [Is_toError, hv, beq_iff_eq, Kind_String_eq_iff c k hc]
  exact eq_comm


/-- C16: `Kind.String` is injective on the 14 defined kinds and none of them has the
default string `"unkown_error"`; so for the error of each constructor and every kind
value `k` (defined or not), `Is(e, k)` holds exactly when `k` is the kind the
constructor uses. -/
theorem Is_constructor_kind :
    (∀ a b : Kind, a ≤ 13 → b ≤ 13 → Kind.String a = Kind.String b → a = b) ∧
    (∀ a : Kind, a ≤ 13 → Kind.String a ≠ "unkown_error") ∧
    (∀ (k : Kind) (m : String) (e : GoError),
      (Is (InvalidRequestError m e).toError k = true ↔ k = ErrInvalidRequest) ∧
      (Is (NotFoundError m e).toError k = true ↔ k = ErrNotFound) ∧
      (Is (ResourceConflictError m e).toError k = true ↔ k = ErrResourceConflict) ∧
      (Is (UnauthorizedError m e).toError k = true ↔ k = ErrUnauthorized) ∧
      (Is (ForbidenError m e).toError k = true ↔ k = ErrForbidden)) ∧
    (∀ (k : Kind) (e : GoError),
      (Is (InternalServerError e).toError k = true ↔ k = ErrInternalServer) ∧
      (Is (NoTokenError e).toError k = true ↔ k = ErrNoToken) ∧
      (Is (InvalidTokenError e).toError k = true ↔ k = ErrInvalidToken) ∧
      (Is (InvalidApiKeyError e).toError k = true ↔ k = ErrInvalidToken) ∧
      (Is (InvalidJWTClaimsError e).toError k = true ↔ k = ErrInvalidJWTClaims) ∧
      (Is (InvalidKeyAttributesError e).toError k = true ↔ k = ErrInvalidJWTClaims) ∧
      (Is (InvalidAuthMethodError e).toError k = true ↔ k = ErrInvalidJWTClaims)) ∧
    (∀ (k : Kind) (vf : validationFields) (v : Kerror), ValidationError vf = some v →
      (Is v.toError k = true ↔ k = ErrValidation)) := by
  refine ⟨Kind_String_injective, Kind_String_defined_ne_default, ?_, ?_, ?_⟩
  · intro k m e
    exact ⟨Is_iff_kind _ ErrInvalidRequest (by decide) rfl k,
      Is_iff_kind _ ErrNotFound (by decide) rfl k,
      Is_iff_kind _ ErrResourceConflict (by decide) rfl k,
      Is_iff_kind _ ErrUnauthorized (by decide) rfl k,
      Is_iff_kind _ ErrForbidden (by decide) rfl k⟩
  · intro k e
    exact ⟨Is_iff_kind _ ErrInternalServer (by decide) rfl k,
      Is_iff_kind _ ErrNoToken (by decide) rfl k,
      Is_iff_kind _ ErrInvalidToken (by decide) rfl k,
      Is_iff_kind _ ErrInvalidToken (by decide) rfl k,
      Is_iff_kind _ ErrInvalidJWTClaims (by decide) rfl k,
      Is_iff_kind _ ErrInvalidJWTClaims (by decide) rfl k,
      Is_iff_kind _ ErrInvalidJWTClaims (by decide) rfl k⟩
  · intro k vf v hv
    exact Is_iff_kind v ErrValidation (by decide) (ValidationError_pair vf v hv).1 k

/-- C16 (witness): the kinds 2 and 12 have different strings, and on the error of
`ValidationError` of one field `Is` holds for kind 5 and fails for the undefined kind
200. -/
theorem Is_constructor_kind_witness :
    (Kind.String 2 = Kind.String 12 → (2 : Kind) = 12) ∧
      Kind.String 13 ≠ "unkown_error" ∧
      (Is (Kerror.mk 400 "input_validation_error"
          "could not validate one or more of the submitted fields"
          (some [("email", "is required")]) none GoError.nil none).toError 200 = true ↔
        (200 : Kind) = ErrValidation) :=
  ⟨Is_constructor_kind.1 2 12 (by decide) (by decide),
   Is_constructor_kind.2.1 13 (by decide),
   Is_constructor_kind.2.2.2.2 200 [⟨"email", GoError.errorString "is required"⟩] _ rfl⟩

/-! ### `Tokerror` -/

/-- C17: for every application error `e` at a pointer `p`, `Tokerror(e)` returns a
non-nil pointer to a new struct (another address; the struct of `e` stays as it is) whose
`Status`, `Kind` and `Message` are `e.Code()`, `e.GetKind()` and `e.GetMessage()`, whose
`Fields` are those of `e` if the kind of `e` is `"input_validation_error"` and unset
otherwise, and whose context, cause and logger are unset; and whenever `Tokerror`
returns, on any input, the pointer is not nil. -/
theorem Tokerror_of_Kerror (st : Store) (p : Nat) (e : Kerror) (hp : st[p]? = some e) :
    (∃ kerr, Tokerror e.toError = some (some kerr) ∧
        TokerrorAt st p = some (st ++ [kerr], some st.length) ∧ st.length ≠ p ∧
        (st ++ [kerr])[p]? = some e ∧ (st ++ [kerr])[st.length]? = some kerr ∧
        kerr.Status = e.Code ∧ kerr.Kind = e.GetKind ∧ kerr.Message = e.GetMessage ∧
        (e.Kind = "input_validation_error" → kerr.Fields = e.GetValidationFields) ∧
        (e.Kind ≠ "input_validation_error" → kerr.Fields = none) ∧
        kerr.context = none ∧ kerr.err = GoError.nil ∧ kerr.logger = none) ∧
      (∀ (x : GoError) (r : Option Kerror), Tokerror x = some r → r ≠ none) := by
  have hlt : p < st.length := by
    rcases Nat.lt_or_ge p st.length with h | h
    · exact h
    · rw [List.getElem?_eq_none h] at hp
      exact absurd hp (by simp)
  refine ⟨⟨_, Tokerror_kerror e, ?_, Nat.ne_of_gt hlt, ?_, ?_, rfl, rfl, rfl, ?_, ?_, rfl,
    rfl, rfl⟩, ?_⟩
  · simp only [TokerrorAt, hp, Tokerror_kerror e]
  · rw [List.getElem?_append_left hlt]
    exact hp
  · simp
  · intro hk
    simp [hk, Kerror.GetValidationFields]
  · intro hk
    simp [hk]
  · intro x r hx
    cases x with
    | kerror s kind m f ctx err l =>
      simp only [Tokerror, tokerrorBody, ne_eq, reduceCtorEq, not_false_eq_true, if_true,
        Option.some.injEq] at hx
      subst hx
      simp
    | foreignKisa code kind m f t =>
      simp only [Tokerror, tokerrorBody, ne_eq, reduceCtorEq, not_false_eq_true, if_true,
        Option.some.injEq] at hx
      subst hx
      simp
    | _ => simp [Tokerror] at hx

/-- C17 (witness): `Tokerror` on a validation error with context and logger, at
address 0, returns address 1 with the same status, kind, message and fields. -/
theorem Tokerror_of_Kerror_witness :
    ∃ kerr, Tokerror (Kerror.mk 400 "input_validation_error" "bad input"
          (some [("email", "is required")]) (some [("id", Value.int 7)])
          (GoError.errorString "cause") (some ⟨3⟩)).toError = some (some kerr) ∧
      TokerrorAt [Kerror.mk 400 "input_validation_error" "bad input"
          (some [("email", "is required")]) (some [("id", Value.int 7)])
          (GoError.errorString "cause") (some ⟨3⟩)] 0 =
        some ([Kerror.mk 400 "input_validation_error" "bad input"
          (some [("email", "is required")]) (some [("id", Value.int 7)])
          (GoError.errorString "cause") (some ⟨3⟩)] ++ [kerr], some 1) ∧
      kerr.Status = 400 ∧ kerr.Kind = "input_validation_error" ∧
      kerr.Message = "bad input" ∧ kerr.Fields = some [("email", "is required")] ∧
      kerr.context = none ∧ kerr.err = GoError.nil ∧ kerr.logger = none := by
  obtain ⟨⟨kerr, h1, h2, _, _, _, h3, h4, h5, h6, _, h7, h8, h9⟩, _⟩ :=
    Tokerror_of_Kerror [Kerror.mk 400 "input_validation_error" "bad input"
      (some [("email", "is required")]) (some [("id", Value.int 7)])
      (GoError.errorString "cause") (some ⟨3⟩)] 0 _ rfl
  exact ⟨kerr, h1, h2, h3, h4, h5, h6 rfl, h7, h8, h9⟩


/-! ### The field map of `ValidationError` -/

theorem mapSet_keys {α : Type} (m : List (String × α)) (a : String) (v : α) :
    (mapSet m a v).map Prod.fst =
      if a ∈ m.map Prod.fst then m.map Prod.fst else m.map Prod.fst ++ [a] := by
  induction m with
  | nil => simp [mapSet]
  | cons x rest ih =>
    obtain ⟨b, y⟩ := x
    by_cases hba : b = a
    · subst hba
      simp [mapSet]
    · have hab : ¬ a = b := fun h => hba h.symm
      simp only [mapSet, hba, if_false, List.map_cons, ih, List.mem_cons, hab, false_or]
      split <;> simp

theorem mapSet_mem_keys {α : Type} (m : List (String × α)) (a name : String) (v : α) :
    name ∈ (mapSet m a v).map Prod.fst ↔ name = a ∨ name ∈ m.map Prod.fst := by
  rw [mapSet_keys]
  split
  · constructor
    · exact Or.inr
    · rintro (rfl | h)
      · assumption
      · exact h
  · simp only [List.mem_append, List.mem_singleton]
    exact Or.comm

theorem mapSet_nodup {α : Type} (m : List (String × α)) (a : String) (v : α)
    (h : (m.map Prod.fst).Nodup) : ((mapSet m a v).map Prod.fst).Nodup := by
  rw [mapSet_keys]
  split
  · exact h
  · rename_i hnot
    exact List.Nodup.append h (List.nodup_singleton a) (by
      intro x hx hx2
      simp only [List.mem_singleton] at hx2
      subst hx2
      exact hnot hx)

theorem mapSet_length_le {α : Type} (m : List (String × α)) (a : String) (v : α) :
    (mapSet m a v).length ≤ m.length + 1 := by
  have h := congrArg List.length (mapSet_keys m a v)
  simp only [List.length_map] at h
  rw [h]
  split <;> simp

theorem fieldsLoop_eq_setFields (vf : List FieldValidationError)
    (h : ∀ f ∈ vf, f.Error ≠ GoError.nil) (acc : List (String × String)) :
    fieldsLoop vf acc = some (setFields acc vf) := by
  induction vf generalizing acc with
  | nil => rfl
  | cons f rest ih =>
    have hf : f.Error ≠ GoError.nil := h f (List.mem_cons_self _ _)
    simp only [fieldsLoop, callError_of_ne_nil _ hf]
    exact ih (fun g hg => h g (List.mem_cons_of_mem _ hg)) _

theorem setFields_cons (acc : List (String × String)) (f : FieldValidationError)
    (rest : List FieldValidationError) :
    setFields acc (f :: rest) = setFields (mapSet acc f.FieldName (errorText f.Error)) rest :=
  rfl

theorem setFields_mem_keys (vf : List FieldValidationError) (acc : List (String × String))
    (name : String) :
    name ∈ (setFields acc vf).map Prod.fst ↔
      name ∈ acc.map Prod.fst ∨ name ∈ vf.map (fun f => f.FieldName) := by
  induction vf generalizing acc with
  | nil => simp [setFields]
  | cons f rest ih =>
    rw [setFields_cons, ih, mapSet_mem_keys]
    simp only [List.map_cons, List.mem_cons]
    constructor
    · rintro ((h | h) | h)
      · exact Or.inr (Or.inl h)
      · exact Or.inl h
      · exact Or.inr (Or.inr h)
    · rintro (h | h | h)
      · exact Or.inl (Or.inr h)
      · exact Or.inl (Or.inl h)
      · exact Or.inr h

theorem setFields_nodup (vf : List FieldValidationError) (acc : List (String × String))
    (h : (acc.map Prod.fst).Nodup) : ((setFields acc vf).map Prod.fst).Nodup := by
  induction vf generalizing acc with
  | nil => exact h
  | cons f rest ih =>
    rw [setFields_cons]
    exact ih _ (mapSet_nodup _ _ _ h)

theorem setFields_length_le (vf : List FieldValidationError) (acc : List (String × String)) :
    (setFields acc vf).length ≤ acc.length + vf.length := by
  induction vf generalizing acc with
  | nil => simp [setFields]
  | cons f rest ih =>
    rw [setFields_cons]
    have h1 := ih (mapSet acc f.FieldName (errorText f.Error))
    have h2 := mapSet_length_le acc f.FieldName (errorText f.Error)
    simp only [List.length_cons]
    omega

theorem setFields_get_notin (vf : List FieldValidationError) (acc : List (String × String))
    (name : String) (h : name ∉ vf.map (fun f => f.FieldName)) :
    mapGet (setFields acc vf) name = mapGet acc name := by
  induction vf generalizing acc with
  | nil => rfl
  | cons f rest ih =>
    simp only [List.map_cons, List.mem_cons, not_or] at h
    rw [setFields_cons, ih _ h.2, mapGet_mapSet]
    have hne : ¬ f.FieldName = name := fun e => h.1 e.symm
    simp [hne]

theorem setFields_append (acc : List (String × String))
    (pre post : List FieldValidationError) :
    setFields acc (pre ++ post) = setFields (setFields acc pre) post := by
  simp [setFields, List.foldl_append]

/-- C18: for every list `vf` of field validation errors with non-nil messages,
`ValidationError(vf)` returns with a field map whose keys are exactly the field names of
`vf`, each once, and which maps each name to the message text of the last entry of `vf`
with that name; it has at most as many entries as `vf`. -/
theorem ValidationError_field_map (vf : validationFields)
    (h : ∀ f ∈ vf, f.Error ≠ GoError.nil) :
    ∃ k fields, ValidationError vf = some k ∧ k.Fields = some fields ∧
      (∀ name, name ∈ fields.map Prod.fst ↔ name ∈ vf.map (fun f => f.FieldName)) ∧
      (fields.map Prod.fst).Nodup ∧
      (∀ (pre post : List FieldValidationError) (f : FieldValidationError),
        vf = pre ++ f :: post → f.FieldName ∉ post.map (fun g => g.FieldName) →
        mapGet fields f.FieldName = some (errorText f.Error) ∧
          callError f.Error = some (errorText f.Error)) ∧
      fields.length ≤ vf.length := by
  refine ⟨{ newKisa "could not validate one or more of the submitted fields"
      (Kind.String ErrValidation) StatusBadRequest GoError.nil with
      Fields := some (setFields [] vf) }, setFields [] vf, ?_, rfl, ?_, ?_, ?_, ?_⟩
  · simp only [ValidationError, Kerror.setValidationFields, fieldsLoop_eq_setFields vf h,
      Option.map_some']
  · intro name
    rw [setFields_mem_keys]
    simp
  · exact setFields_nodup vf [] (by simp)
  · intro pre post f hvf hpost
    refine ⟨?_, callError_of_ne_nil _ (h f (by rw [hvf]; simp))⟩
    rw [hvf, setFields_append, setFields_cons, setFields_get_notin _ _ _ hpost,
      mapGet_mapSet]
    simp
  · have := setFields_length_le vf []
    simpa using this

/-- C18 (witness): two failures on `email` and one on `name` give a map of two entries,
with the message of the second failure under `email`. -/
theorem ValidationError_field_map_witness :
    ∃ k fields,
      ValidationError [⟨"email", GoError.errorString "email is required"⟩,
        ⟨"name", GoError.errorString "name is too short"⟩,
        ⟨"email", GoError.errorString "email must be valid"⟩] = some k ∧
      k.Fields = some fields ∧
      mapGet fields "email" = some "email must be valid" ∧ fields.length ≤ 3 := by
  obtain ⟨k, fields, h1, h2, _, _, h5, h6⟩ :=
    ValidationError_field_map [⟨"email", GoError.errorString "email is required"⟩,
        ⟨"name", GoError.errorString "name is too short"⟩,
        ⟨"email", GoError.errorString "email must be valid"⟩] (by
      intro f hf
      simp only [List.mem_cons, List.mem_singleton, List.not_mem_nil, or_false] at hf
      rcases hf with rfl | rfl | rfl <;> simp)
  exact ⟨k, fields, h1, h2,
    (h5 [⟨"email", GoError.errorString "email is required"⟩,
        ⟨"name", GoError.errorString "name is too short"⟩] []
      ⟨"email", GoError.errorString "email must be valid"⟩ rfl (by simp)).1, h6⟩

end kerror
